import Mathlib

/-
Verification development for the ai-calling-service repository.

The Python sources are shallowly embedded: each Python function that the
claims touch becomes a Lean definition translated from the source, with
dictionaries modelled as association lists carrying Python dict semantics
(first-match lookup, replace-or-append assignment, keyed removal), Python
truthiness modelled explicitly, and the two WebSocket forwarding loops of
`handlers/media_stream.py` modelled as step functions over the bridge's
shared mutable locals, folded over the finite list of messages each
connection delivers before it closes.  Network calls to the external
record-keeping service are parameters (oracles) supplying the responses
the code would receive.
-/

namespace AICallSvc

/-! ## Python dict model (association lists with dict semantics) -/

/-- Association-list model of a Python `dict`; keys are strings. -/
abbrev Dict (α : Type) := List (String × α)

/-- Model of `d.get(k)` / `d[k]`: first entry whose key matches. -/
def dictGet {α : Type} : Dict α → String → Option α
  | [], _ => none
  | (k2, v) :: rest, k => if k2 = k then some v else dictGet rest k

/-- Model of `k in d`. -/
def dictMem {α : Type} (d : Dict α) (k : String) : Bool :=
  (dictGet d k).isSome

/-- Model of `d[k] = v`: replace the value of an existing key, else append. -/
def dictInsert {α : Type} : Dict α → String → α → Dict α
  | [], k, v => [(k, v)]
  | (k2, w) :: rest, k, v =>
    if k2 = k then (k2, v) :: rest else (k2, w) :: dictInsert rest k v

/-- Model of `d.pop(k, None)` / `del d[k]` on the table itself. -/
def dictPop {α : Type} : Dict α → String → Dict α
  | [], _ => []
  | (k2, w) :: rest, k => if k2 = k then rest else (k2, w) :: dictPop rest k

/-- Number of entries carrying key `k` (Python dicts keep this at most 1). -/
def dictCount {α : Type} (d : Dict α) (k : String) : Nat :=
  d.countP (fun p => p.1 = k)

/-- The keys of a real Python dict are pairwise distinct. -/
def dictNodup {α : Type} (d : Dict α) : Prop :=
  (d.map Prod.fst).Nodup

instance dictNodupDec {α : Type} (d : Dict α) : Decidable (dictNodup d) :=
  List.nodupDecidable _

/-! ## Python string helpers -/

/-- Whitespace recognised by the model of `str.strip()`. -/
def isWs (c : Char) : Bool :=
  c = ' ' || c = '\t' || c = '\n' || c = '\r'

/-- Model of Python `str.strip()`: drop whitespace at both ends. -/
def pstrip (s : String) : String :=
  String.mk (((s.toList.dropWhile isWs).reverse.dropWhile isWs).reverse)

/-- Python truthiness of an optional string (`None` and `""` are falsy). -/
def truthyS : Option String → Bool
  | none => false
  | some s => !s.isEmpty

/-! ## Constants (`utils/constants.py`) -/

def SPEAKER_CALLER : String := "caller"

def SPEAKER_AI : String := "ai"

def SPEAKER_ADMIN : String := "admin"

def STATUS_IN_PROGRESS : String := "IN_PROGRESS"

def STATUS_COMPLETED : String := "COMPLETED"

def STATUS_FAILED : String := "FAILED"

/-- `PRISMA_ID_PREFIX` of `utils/constants.py`. -/
def PRISMA_ID_START : String := "cm"

def MIN_PRISMA_ID_LENGTH : Nat := 20

/-! ## `utils/call_utils.py` -/

/-- `is_prisma_call_id`: nonempty, starts with `"cm"`, length at least 20. -/
def is_prisma_call_id (identifier : String) : Bool :=
  !identifier.isEmpty && List.isPrefixOf PRISMA_ID_START.toList identifier.toList &&
    decide (MIN_PRISMA_ID_LENGTH ≤ identifier.length)

/-! ## `state.py` data model -/

/-- One value of `incoming_call_mapping` (fields read anywhere in the source). -/
structure IncomingEntry where
  call_id : Option String
  fromNum : String
  timestamp : Int
  is_outgoing : Bool
  twilio_call_sid : Option String
  initial_prompts : List String
deriving DecidableEq, Repr

/-- The three process-wide tables of `state.py`; connection handles are `Nat`. -/
structure Tables where
  incoming : Dict IncomingEntry
  agent : Dict String
  active : Dict Nat
deriving DecidableEq, Repr

/-- `cleanup_call_mappings` of `state.py`: pop the pending entry for
`call_sid` and, when an agent sid is supplied (and truthy), its agent entry. -/
def cleanup_call_mappings (tbl : Tables) (call_sid : String)
    (agent_call_sid : Option String) : Tables :=
  let inc := dictPop tbl.incoming call_sid
  let ag :=
    match agent_call_sid with
    | some a => if a ≠ "" then dictPop tbl.agent a else tbl.agent
    | none => tbl.agent
  { tbl with incoming := inc, agent := ag }

/-! ## `services/nextjs_client.py`: `fetch_call_id`

`ext` models the HTTP query against the record-keeping API (its `calls[0].id`
result, or `none` for a miss / unreachable service).  The returned Bool
records whether that network query was performed. -/

/-- Agent-mapping lookup and external fallback of `fetch_call_id`
(everything after the pending-mapping block). -/
def fetch_call_id_rest (tbl : Tables) (ext : String → Option String)
    (call_sid : String) : Option String × Bool :=
  match dictGet tbl.agent call_sid with
  | some original_call_sid =>
    match dictGet tbl.incoming original_call_sid with
    | some m2 => (m2.call_id, false)
    | none => (ext call_sid, true)
  | none => (ext call_sid, true)

/-- `fetch_call_id` of `services/nextjs_client.py`, translated branch by
branch from the source (pending-mapping hit, outgoing-flag hit, agent-mapping
lookup, external query). -/
def fetch_call_id (tbl : Tables) (ext : String → Option String)
    (call_sid : String) : Option String × Bool :=
  match dictGet tbl.incoming call_sid with
  | some m =>
    if truthyS m.call_id then (m.call_id, false)
    else if m.is_outgoing && truthyS m.twilio_call_sid then (some call_sid, false)
    else fetch_call_id_rest tbl ext call_sid
  | none => fetch_call_id_rest tbl ext call_sid

/-- Resolution written from the words of the specification (claim C8):
step (c) recurses `fetch_call_id` on the mapped original identifier.  `fuel`
bounds the recursion; it is only compared against the source translation. -/
def fetch_call_id_specside (fuel : Nat) (tbl : Tables)
    (ext : String → Option String) (k : String) : Option String :=
  match fuel with
  | 0 => none
  | fuel + 1 =>
    match dictGet tbl.incoming k with
    | some m =>
      if truthyS m.call_id then m.call_id
      else if m.is_outgoing && truthyS m.twilio_call_sid then some k
      else
        match dictGet tbl.agent k with
        | some original => fetch_call_id_specside fuel tbl ext original
        | none => ext k
    | none =>
      match dictGet tbl.agent k with
      | some original => fetch_call_id_specside fuel tbl ext original
      | none => ext k

/-- Lines 96-101 of `handlers/media_stream.py`: an identifier in Prisma
call-id format is used directly, otherwise `fetch_call_id` runs. -/
def resolve_call_id_handler (tbl : Tables) (ext : String → Option String)
    (k : String) : Option String × Bool :=
  if is_prisma_call_id k then (some k, false) else fetch_call_id tbl ext k

/-! ## `utils/transcript_utils.py` -/

/-- One transcript entry as stored in call metadata. -/
structure TEntry where
  text : String
  speaker : String
  timestamp : Int
deriving DecidableEq, Repr

/-- The `prompt_exists` test inside `check_and_send_initial_prompts`. -/
def prompt_exists (existing : List TEntry) (p : String) : Bool :=
  existing.any (fun t => pstrip t.text = pstrip p && t.speaker = SPEAKER_ADMIN)

/-- The sending loop of `check_and_send_initial_prompts`: blank prompts are
skipped, a prompt whose stripped text already exists as an admin transcript is
skipped, every other prompt is sent stripped.  Returns the texts sent, in
order; `existing` is not updated during the loop, exactly as in the source. -/
def check_send_loop (existing : List TEntry) : List String → List String
  | [] => []
  | p :: ps =>
    if pstrip p = "" then check_send_loop existing ps
    else if prompt_exists existing p then check_send_loop existing ps
    else pstrip p :: check_send_loop existing ps

/-- `check_and_send_initial_prompts` of `utils/transcript_utils.py` with the
existing transcripts supplied (the source otherwise fetches them).  Returns
the list of transcript texts sent via `send_transcript_func`. -/
def check_and_send_initial_prompts (call_id : String)
    (initial_prompts : List String) (existing : List TEntry)
    (already_sent : Bool) : List String :=
  if already_sent || initial_prompts.isEmpty || call_id.isEmpty then []
  else check_send_loop existing initial_prompts

/-- Transcript entries the record-keeping service stores for the texts sent
by one invocation (speaker admin, some server-side timestamp `ts`). -/
def sentEntries (sent : List String) (ts : Int) : List TEntry :=
  sent.map (fun s => { text := s, speaker := SPEAKER_ADMIN, timestamp := ts })

/-! ## `services/openai_service.py` name resolution (claim C3) -/

/-- The module-level functions `services/openai_service.py` defines. -/
def openai_service_defs : List String :=
  ["initialize_session", "connect_to_openai_realtime"]

/-- The names `handlers/media_stream.py` line 9 imports from that module. -/
def media_stream_openai_imports : List String :=
  ["connect_to_openai_realtime", "send_initial_greeting"]

/-- Whether one imported name resolves against the module. -/
def import_resolves (n : String) : Bool :=
  openai_service_defs.contains n

/-- Whether the import statement of the handler module succeeds. -/
def media_stream_import_ok : Bool :=
  media_stream_openai_imports.all import_resolves

/-- Whether the name `send_initial_greeting` called at line 72 resolves. -/
def greeting_defined : Bool :=
  import_resolves "send_initial_greeting"

/-- Failure modes of `connect_to_openai_realtime`. -/
inductive SetupErr where
  | apiKeyMissing
  | connectFailed
deriving DecidableEq, Repr

/-- `connect_to_openai_realtime` of `services/openai_service.py`:
raises when the key is unset; on a connection/initialization failure it logs
and re-raises (line 146); otherwise returns the connection handle.
`outcome` is the oracle for what `websockets.connect` produces. -/
def connect_to_openai_realtime (apiKeyOk : Bool) (outcome : Option Nat) :
    Except SetupErr Nat :=
  if !apiKeyOk then .error .apiKeyMissing
  else
    match outcome with
    | some conn => .ok conn
    | none => .error .connectFailed

/-! ## Base64 (the payload re-encoding of `send_twilio`) -/

def b64Alphabet : List Char :=
  "ABCDEFGHIJKLMNOPQRSTUVWXYZabcdefghijklmnopqrstuvwxyz0123456789+/".toList

def b64CharVal (c : Char) : Option Nat :=
  b64Alphabet.indexOf? c

def b64Char (n : Nat) : Char :=
  b64Alphabet.getD n 'A'

/-- Regroup 6-bit values into bytes (as `base64.b64decode` does). -/
def sextetsToBytes : List Nat → List Nat
  | a :: b :: c :: d :: rest =>
    (a * 4 + b / 16) :: ((b % 16) * 16 + c / 4) :: ((c % 4) * 64 + d) ::
      sextetsToBytes rest
  | [a, b] => [a * 4 + b / 16]
  | [a, b, c] => [a * 4 + b / 16, (b % 16) * 16 + c / 4]
  | _ => []

/-- Model of `base64.b64decode` (non-alphabet characters are discarded, as
with the default `validate=False`). -/
def b64decode (s : String) : List Nat :=
  sextetsToBytes (s.toList.filterMap b64CharVal)

/-- Encode three bytes / a final partial group into alphabet characters plus
padding (as `base64.b64encode` does). -/
def bytesToB64 : List Nat → List Char
  | x :: y :: z :: rest =>
    b64Char (x / 4) :: b64Char ((x % 4) * 16 + y / 16) ::
      b64Char ((y % 16) * 4 + z / 64) :: b64Char (z % 64) :: bytesToB64 rest
  | [x, y] =>
    [b64Char (x / 4), b64Char ((x % 4) * 16 + y / 16), b64Char ((y % 16) * 4), '=']
  | [x] => [b64Char (x / 4), b64Char ((x % 4) * 16), '=', '=']
  | [] => []

/-- Model of `base64.b64encode(..).decode('utf-8')`. -/
def b64encode (bytes : List Nat) : String :=
  String.mk (bytesToB64 bytes)

/-- The decode/re-encode the audio payload goes through in `send_twilio`. -/
def reencodeB64 (payload : String) : String :=
  b64encode (b64decode payload)

/-! ## The duplex bridge of `handlers/media_stream.py`

The shared mutable locals of `handle_media_stream` become `BridgeState`.
`lpLocal` and `lpsLocal` model the bindings of the names `initial_prompts`
and `initial_prompts_sent` *inside* `recv_twilio`: because both names are
assigned in that nested function without a `nonlocal` declaration (line 135
lists only `stream_sid, latest_ts, actual_call_sid, call_id`), Python treats
them as locals of `recv_twilio`, unbound (`none`) until first assigned;
reading an unbound local raises `UnboundLocalError`. -/

/-- Shared state of the two forwarding loops (the handler's locals). -/
structure BridgeState where
  streamSid : Option String
  latestTs : Int
  responseStartTs : Option Int
  lastItem : Option String
  callId : Option String
  actualCallSid : Option String
  openaiOpen : Bool
  twilioOpen : Bool
  lpLocal : Option (List String)
  lpsLocal : Option Bool
deriving DecidableEq, Repr

/-- Process state seen by one bridge: the global tables plus its locals. -/
structure SysState where
  tables : Tables
  br : BridgeState
deriving DecidableEq, Repr

/-- Requests sent to the record-keeping (Next.js) collaborator. -/
inductive NextReq where
  | updateStatus (callId : String) (status : String)
  | sendTranscript (callId : String) (text : String) (speaker : String)
  | updateRecord (callId : String) (agentSid : String)
  | updateMetadata (callId : String) (finalTranscription : String)
      (transcriptCount : Nat)
deriving DecidableEq, Repr

/-- Observable outputs of the bridge. -/
inductive Out where
  | appendAudio (payload : String)
  | truncateItem (itemId : String) (contentIndex : Nat) (audioEndMs : Int)
  | twilioMedia (streamSid : String) (payload : String)
  | twilioClear (streamSid : Option String)
  | closeBackend
  | warn (msg : String)
  | toNext (r : NextReq)
deriving DecidableEq, Repr

/-- Runtime errors the loop bodies can raise. -/
inductive RunErr where
  | unboundLocal (name : String)
deriving DecidableEq, Repr

/-- Inbound telephony events (`event` field of the Twilio frames). -/
inductive TwilioEvent where
  | connected (eventCallSid : Option String)
  | media (timestamp : Int) (payload : String)
  | start (streamSid : String)
  | stop
  | other (name : String)
deriving DecidableEq, Repr

/-- Inbound speech-backend messages (`type` field). -/
inductive OAIMsg where
  | audioDelta (delta : Option String) (itemId : Option String)
  | speechStarted
  | inputTranscriptionDone (transcript : String)
  | audioTranscriptDone (transcript : String)
  | textDone (text : Option String)
  | other (typ : String)
deriving DecidableEq, Repr

/-- Lines 179-181 of `handlers/media_stream.py`: move the registry entry from
the path handle to the actual call sid when the latter is known, differs, and
the entry exists.  `h2` is `actual_call_sid` (empty string models a falsy
value). -/
def rekey_active (d : Dict Nat) (h1 h2 : String) : Dict Nat :=
  if h2 ≠ "" ∧ h2 ≠ h1 then
    match dictGet d h1 with
    | some conn => dictInsert (dictPop d h1) h2 conn
    | none => d
  else d

/-- The prompts block of the `connected` branch (lines 153-161): when the
event sid differs from the path handle and has a pending entry with prompts,
bind the loop-local `initial_prompts`, then (when a call id is known) read
the loop-local `initial_prompts_sent` — an unbound read raises — and send
the not-yet-recorded prompts. -/
def recvConnectedPrompts (pathSid : String) (fetchedTx : List TEntry)
    (tbl : Tables) (b : BridgeState) (a? : Option String) :
    Except RunErr (BridgeState × List Out) :=
  match a? with
  | some a =>
    if a ≠ "" ∧ a ≠ pathSid then
      match dictGet tbl.incoming a with
      | some entry =>
        if entry.initial_prompts ≠ [] then
          let b1 := { b with lpLocal := some entry.initial_prompts }
          if truthyS b1.callId then
            match b1.lpsLocal with
            | none => .error (.unboundLocal "initial_prompts_sent")
            | some sentFlag =>
              if !sentFlag then
                let sent := check_and_send_initial_prompts (b1.callId.getD "")
                  entry.initial_prompts fetchedTx false
                .ok ({ b1 with lpsLocal := some true },
                  sent.map (fun t =>
                    Out.toNext (.sendTranscript (b1.callId.getD "") t SPEAKER_ADMIN)))
              else .ok (b1, [])
          else .ok (b1, [])
        else .ok (b, [])
      | none => .ok (b, [])
    else .ok (b, [])
  | none => .ok (b, [])

/-- The call-id resolution block of the `connected` branch (lines 163-176):
when no call id is known yet, fetch one by the event sid; on success read the
loop-locals `initial_prompts` / `initial_prompts_sent` (unbound reads raise,
with Python short-circuit order), send pending prompts, store the agent sid
and report IN_PROGRESS. -/
def recvConnectedResolve (ext : String → Option String)
    (fetchedTx : List TEntry) (tbl : Tables) (b : BridgeState)
    (a? : Option String) : Except RunErr (BridgeState × List Out) :=
  match a? with
  | some a =>
    if a ≠ "" ∧ ¬ truthyS b.callId then
      let cid? := (fetch_call_id tbl ext a).1
      let b1 := { b with callId := cid? }
      if truthyS cid? then
        let cid := cid?.getD ""
        let tail := [Out.toNext (.updateRecord cid a),
                     Out.toNext (.updateStatus cid STATUS_IN_PROGRESS)]
        match b1.lpLocal with
        | none => .error (.unboundLocal "initial_prompts")
        | some lp =>
          if lp ≠ [] then
            match b1.lpsLocal with
            | none => .error (.unboundLocal "initial_prompts_sent")
            | some sentFlag =>
              if !sentFlag then
                let sent := check_and_send_initial_prompts cid lp fetchedTx false
                .ok ({ b1 with lpsLocal := some true },
                  (sent.map (fun t =>
                    Out.toNext (.sendTranscript cid t SPEAKER_ADMIN))) ++ tail)
              else .ok (b1, tail)
          else .ok (b1, tail)
      else .ok (b1, [])
    else .ok (b, [])
  | none => .ok (b, [])

/-- One iteration of `recv_twilio` (lines 137-210).  The Bool of the result
is the `stop` break flag. -/
def recvStep (pathSid : String) (ext : String → Option String)
    (fetchedTx : List TEntry) (s : SysState) (e : TwilioEvent) :
    Except RunErr (SysState × List Out × Bool) :=
  match e with
  | .connected eventCallSid =>
    let b0 := { s.br with actualCallSid := eventCallSid }
    match recvConnectedPrompts pathSid fetchedTx s.tables b0 eventCallSid with
    | .error err => .error err
    | .ok (b1, outs1) =>
      match recvConnectedResolve ext fetchedTx s.tables b1 eventCallSid with
      | .error err => .error err
      | .ok (b2, outs2) =>
        let act :=
          match eventCallSid with
          | some a => rekey_active s.tables.active pathSid a
          | none => s.tables.active
        .ok ({ tables := { s.tables with active := act }, br := b2 },
          outs1 ++ outs2, false)
  | .media ts payload =>
    if s.br.openaiOpen then
      .ok ({ s with br := { s.br with latestTs := ts } },
        [Out.appendAudio payload], false)
    else .ok (s, [], false)
  | .start sid =>
    .ok ({ s with br := { s.br with streamSid := some sid } }, [], false)
  | .stop =>
    if s.br.openaiOpen then
      .ok ({ s with br := { s.br with openaiOpen := false } },
        [Out.closeBackend], true)
    else .ok (s, [], true)
  | .other _ => .ok (s, [], false)

/-- How `recv_twilio` finished. -/
inductive ExitReason where
  | streamEnd
  | stopEvent
  | errExit
deriving DecidableEq, Repr

/-- The `recv_twilio` loop over the finite list of events the telephony
connection delivers before closing.  End of list is the telephony-side
disconnect: the server's `iter_text` iterator swallows the disconnect
exception and simply ends iteration, so the `except WebSocketDisconnect`
handler at lines 211-219 never runs and `recv_twilio` returns without
touching the backend connection.  An exception raised inside an iteration
lands in the generic handler (lines 220-225), which closes the backend
connection. -/
def recvLoop (pathSid : String) (ext : String → Option String)
    (fetchedTx : List TEntry) (s : SysState) :
    List TwilioEvent → SysState × List Out × ExitReason
  | [] => (s, [], .streamEnd)
  | e :: rest =>
    match recvStep pathSid ext fetchedTx s e with
    | .error _ =>
      if s.br.openaiOpen then
        ({ s with br := { s.br with openaiOpen := false } },
          [Out.closeBackend], .errExit)
      else (s, [], .errExit)
    | .ok (s2, outs, stopFlag) =>
      if stopFlag then (s2, outs, .stopEvent)
      else
        let r := recvLoop pathSid ext fetchedTx s2 rest
        (r.1, outs ++ r.2.1, r.2.2)

/-- `on_speech_started` (lines 112-131): truncate the current item at the
elapsed offset when both trackers are set, send `clear` to telephony (the
send is guarded by a try/except), then reset both trackers. -/
def on_speech_started (b : BridgeState) : BridgeState × List Out :=
  let outs1 :=
    match b.lastItem, b.responseStartTs with
    | some item, some t0 =>
      if item ≠ "" then [Out.truncateItem item 0 (b.latestTs - t0)] else []
    | _, _ => []
  let outs2 :=
    if b.twilioOpen then [Out.twilioClear b.streamSid]
    else [Out.warn "clear-not-sent"]
  ({ b with lastItem := none, responseStartTs := none }, outs1 ++ outs2)

/-- Lines 263-266 of `send_twilio`: record the response start (first chunk of
a turn) and the currently-speaking item id (walrus truthiness test). -/
def delta_trackers (b : BridgeState) (itemId : Option String) : BridgeState :=
  let b1 :=
    if b.responseStartTs = none then { b with responseStartTs := some b.latestTs }
    else b
  match itemId with
  | some i => if i ≠ "" then { b1 with lastItem := some i } else b1
  | none => b1

/-- One iteration of `send_twilio` (lines 231-291).  The Bool is the `break`
flag (sending to a closed telephony socket breaks the loop). -/
def sendStep (b : BridgeState) : OAIMsg → BridgeState × List Out × Bool
  | .audioDelta delta itemId =>
    let sendRes : List Out × Bool :=
      if !truthyS delta then ([Out.warn "delta-missing"], false)
      else
        match b.streamSid with
        | none => ([Out.warn "stream-sid-not-set"], false)
        | some sid =>
          if b.twilioOpen then
            ([Out.twilioMedia sid (reencodeB64 (delta.getD ""))], false)
          else ([], true)
    if sendRes.2 then (b, sendRes.1, true)
    else (delta_trackers b itemId, sendRes.1, false)
  | .speechStarted =>
    let r := on_speech_started b
    (r.1, r.2, false)
  | .inputTranscriptionDone transcript =>
    if pstrip transcript ≠ "" ∧ truthyS b.callId then
      (b, [Out.toNext (.sendTranscript (b.callId.getD "") (pstrip transcript)
        SPEAKER_CALLER)], false)
    else (b, [], false)
  | .audioTranscriptDone transcript =>
    if pstrip transcript ≠ "" ∧ truthyS b.callId then
      (b, [Out.toNext (.sendTranscript (b.callId.getD "") (pstrip transcript)
        SPEAKER_AI)], false)
    else (b, [], false)
  | .textDone text =>
    if truthyS text ∧ truthyS b.callId then
      if pstrip (text.getD "") ≠ "" then
        (b, [Out.toNext (.sendTranscript (b.callId.getD "")
          (pstrip (text.getD "")) SPEAKER_AI)], false)
      else (b, [], false)
    else (b, [], false)
  | .other _ => (b, [], false)

/-- The `send_twilio` loop over the finite list of messages the backend
connection delivers before closing. -/
def sendLoop (b : BridgeState) : List OAIMsg → BridgeState × List Out
  | [] => (b, [])
  | m :: ms =>
    let r := sendStep b m
    if r.2.2 then (r.1, r.2.1)
    else
      let r2 := sendLoop r.1 ms
      (r2.1, r.2.1 ++ r2.2)

/-! ## Teardown (the `finally` block, lines 306-381) -/

/-- Call details the record-keeping service returns for the final compile
(`metadata.transcripts` and `metadata.initialPrompts`). -/
structure CallDetails where
  transcripts : List TEntry
  initialPrompts : List String
deriving DecidableEq, Repr

/-- Stable insertion by timestamp, placing an element before the strictly
later ones (the behavior of Python `sorted` with a timestamp key). -/
def insertTs (t : TEntry) : List TEntry → List TEntry
  | [] => [t]
  | u :: us =>
    if u.timestamp ≤ t.timestamp then u :: insertTs t us else t :: u :: us

/-- Model of `sorted(transcripts, key=lambda x: x.get("timestamp", 0))`. -/
def sortByTs (l : List TEntry) : List TEntry :=
  l.foldr insertTs []

/-- One line of the compiled transcript for a stored entry. -/
def formatEntry (t : TEntry) : String :=
  "[" ++ t.speaker.toUpper ++ "]: " ++ t.text

/-- Lines 341-361: sort by timestamp, prefix the non-blank recorded initial
prompts as admin lines, and join with newlines. -/
def compileTranscription (d : CallDetails) : String :=
  let sorted := sortByTs d.transcripts
  let promptParts := (d.initialPrompts.filter (fun p => pstrip p ≠ "")).map
    (fun p => "[ADMIN]: " ++ pstrip p)
  String.intercalate "\n" (promptParts ++ sorted.map formatEntry)

/-- Line 308: `actual_call_sid if actual_call_sid else call_sid`. -/
def cleanupSid (pathSid : String) (actual : Option String) : String :=
  match actual with
  | some a => if a ≠ "" then a else pathSid
  | none => pathSid

/-- Lines 313-315: follow the agent mapping to the original sid if present. -/
def originalSid (tbl : Tables) (cleanup : String) : String :=
  (dictGet tbl.agent cleanup).getD cleanup

/-- The `finally` block, lines 306-381: resolve the cleanup identifiers,
purge the tables, compile and report the final transcript (when the fetch
succeeds and transcripts exist), report COMPLETED, close the backend
connection if still open.  `details` is the oracle for
`fetch_call_details` (`none` when the collaborator is unreachable or the
call unknown); every remote call swallows its own errors in
`services/nextjs_client.py`, so no oracle value aborts teardown.
Line 308 (`actual_call_sid if actual_call_sid else call_sid`) is
`cleanupSid`; lines 313-315 (follow the agent mapping to the original sid)
are `originalSid`. -/
def teardown (tbl : Tables) (pathSid : String) (actual : Option String)
    (callId : Option String) (details : Option CallDetails)
    (openaiOpen : Bool) : Tables × List Out :=
  let cleanup := cleanupSid pathSid actual
  let original := originalSid tbl cleanup
  let tbl1 := cleanup_call_mappings tbl original
    (if cleanup ≠ original then some cleanup else none)
  let tbl2 :=
    if pathSid ≠ cleanup ∧ pathSid ≠ original then
      cleanup_call_mappings tbl1 pathSid none
    else tbl1
  let act1 := dictPop tbl2.active cleanup
  let act2 := if pathSid ≠ cleanup then dictPop act1 pathSid else act1
  let tbl3 := { tbl2 with active := act2 }
  let outs1 :=
    match callId with
    | some cid =>
      if cid ≠ "" then
        (match details with
         | some d =>
           if d.transcripts ≠ [] then
             [Out.toNext (.updateMetadata cid (compileTranscription d)
               d.transcripts.length)]
           else []
         | none => []) ++ [Out.toNext (.updateStatus cid STATUS_COMPLETED)]
      else []
    | none => []
  let outs2 := if openaiOpen then [Out.closeBackend] else []
  (tbl3, outs1 ++ outs2)

/-! ## The handler (`handle_media_stream`) -/

/-- Summary of one handler run. -/
structure HandlerResult where
  connectAttempts : Nat
  loopsRun : Bool
  teardownRuns : Nat
  outs : List Out
deriving DecidableEq, Repr

/-- Control flow of `handle_media_stream`: connect (one attempt, lines
65-73); a connect failure or a failure of the `send_initial_greeting` call
(both inside the same try) runs the setup-failure branch (lines 74-85:
resolve by the path handle, report FAILED when resolvable, return without
loops); otherwise register the connection, resolve the call id (lines
96-110), run both loops, and run the `finally` teardown exactly once. -/
def handle_media_stream_model (apiKeyOk : Bool) (connectOutcome : Option Nat)
    (greetingOk : Bool) (tbl : Tables) (pathSid : String)
    (ext : String → Option String) (fetchedTx : List TEntry)
    (tevs : List TwilioEvent) (omsgs : List OAIMsg)
    (details : Option CallDetails) : HandlerResult :=
  match connect_to_openai_realtime apiKeyOk connectOutcome with
  | .error _ =>
    let cid? := (fetch_call_id tbl ext pathSid).1
    { connectAttempts := 1, loopsRun := false, teardownRuns := 0,
      outs :=
        if truthyS cid? then
          [Out.toNext (.updateStatus (cid?.getD "") STATUS_FAILED)]
        else [] }
  | .ok conn =>
    if !greetingOk then
      let cid? := (fetch_call_id tbl ext pathSid).1
      { connectAttempts := 1, loopsRun := false, teardownRuns := 0,
        outs :=
          if truthyS cid? then
            [Out.toNext (.updateStatus (cid?.getD "") STATUS_FAILED)]
          else [] }
    else
      let tbl1 := { tbl with active := dictInsert tbl.active pathSid conn }
      let cid? := (resolve_call_id_handler tbl1 ext pathSid).1
      let prompts0 :=
        match dictGet tbl.incoming pathSid with
        | some e => e.initial_prompts
        | none => []
      let setupOuts :=
        if truthyS cid? then
          [Out.toNext (.updateStatus (cid?.getD "") STATUS_IN_PROGRESS)] ++
            (if prompts0 ≠ [] then
              (check_and_send_initial_prompts (cid?.getD "") prompts0 fetchedTx
                false).map (fun t =>
                  Out.toNext (.sendTranscript (cid?.getD "") t SPEAKER_ADMIN))
            else [])
        else []
      let s0 : SysState :=
        { tables := tbl1,
          br := { streamSid := none, latestTs := 0, responseStartTs := none,
                  lastItem := none, callId := cid?, actualCallSid := none,
                  openaiOpen := true, twilioOpen := true,
                  lpLocal := none, lpsLocal := none } }
      let r := recvLoop pathSid ext fetchedTx s0 tevs
      let r2 := sendLoop r.1.br omsgs
      let td := teardown r.1.tables pathSid r2.1.actualCallSid r2.1.callId
        details r2.1.openaiOpen
      { connectAttempts := 1, loopsRun := true, teardownRuns := 1,
        outs := setupOuts ++ r.2.1 ++ r2.2 ++ td.2 }

/-! ## Dictionary lemmas -/

@[simp]
theorem truthyS_none : truthyS none = false := rfl

theorem dictGet_insert_self {α : Type} (d : Dict α) (k : String) (v : α) :
    dictGet (dictInsert d k v) k = some v := by
  induction d with
  | nil => simp [dictInsert, dictGet]
  | cons p rest ih =>
    by_cases h : p.1 = k
    · simp [dictInsert, dictGet, h]
    · simp [dictInsert, dictGet, h, ih]

theorem dictGet_insert_ne {α : Type} (d : Dict α) (k k2 : String) (v : α)
    (h : k ≠ k2) : dictGet (dictInsert d k v) k2 = dictGet d k2 := by
  induction d with
  | nil => simp [dictInsert, dictGet, h]
  | cons p rest ih =>
    by_cases h1 : p.1 = k
    · simp [dictInsert, dictGet, h1, h]
    · simp [dictInsert, dictGet, h1, ih]

theorem dictGet_pop_ne {α : Type} (d : Dict α) (k k2 : String) (h : k ≠ k2) :
    dictGet (dictPop d k) k2 = dictGet d k2 := by
  induction d with
  | nil => simp [dictPop]
  | cons p rest ih =>
    by_cases h1 : p.1 = k
    · subst h1
      simp [dictPop, dictGet, h]
    · simp [dictPop, dictGet, h1, ih]

theorem dictPop_sublist_keys {α : Type} (d : Dict α) (k : String) :
    ((dictPop d k).map Prod.fst).Sublist (d.map Prod.fst) := by
  induction d with
  | nil => simp [dictPop]
  | cons p rest ih =>
    by_cases h1 : p.1 = k
    · simp only [dictPop, h1, if_pos rfl, List.map_cons]
      exact (List.sublist_cons_self _ _)
    · simpa [dictPop, h1] using ih.cons₂ p.1

theorem dictNodup_pop {α : Type} (d : Dict α) (k : String) (h : dictNodup d) :
    dictNodup (dictPop d k) :=
  h.sublist (dictPop_sublist_keys d k)

theorem dictGet_eq_none_iff {α : Type} (d : Dict α) (k : String) :
    dictGet d k = none ↔ k ∉ d.map Prod.fst := by
  induction d with
  | nil => simp [dictGet]
  | cons p rest ih =>
    by_cases h1 : p.1 = k
    · simp [dictGet, h1]
    · have h2 : ¬ k = p.1 := fun hc => h1 hc.symm
      simp [dictGet, h1, ih, h2]

theorem dictGet_pop_self {α : Type} (d : Dict α) (k : String)
    (h : dictNodup d) : dictGet (dictPop d k) k = none := by
  induction d with
  | nil => simp [dictPop, dictGet]
  | cons p rest ih =>
    have hn : dictNodup rest := (List.nodup_cons.mp h).2
    by_cases h1 : p.1 = k
    · have hni : p.1 ∉ rest.map Prod.fst := (List.nodup_cons.mp h).1
      simp only [dictPop, h1, if_pos rfl]
      exact (dictGet_eq_none_iff rest k).mpr (h1 ▸ hni)
    · simp [dictPop, dictGet, h1, ih hn]

theorem dictGet_none_pop {α : Type} (d : Dict α) (k k2 : String)
    (h : dictGet d k = none) : dictGet (dictPop d k2) k = none := by
  rw [dictGet_eq_none_iff] at h ⊢
  exact fun hc => h ((dictPop_sublist_keys d k2).subset hc)

theorem dictCount_eq_zero {α : Type} (d : Dict α) (k : String)
    (h : k ∉ d.map Prod.fst) : dictCount d k = 0 := by
  induction d with
  | nil => rfl
  | cons p rest ih =>
    simp only [List.map_cons, List.mem_cons, not_or] at h
    have h2 : ¬ p.1 = k := fun hc => h.1 hc.symm
    have hz := ih h.2
    simp only [dictCount, List.countP_cons] at hz ⊢
    simp [h2, hz]

theorem dictCount_insert_self {α : Type} (d : Dict α) (k : String) (v : α)
    (h : dictNodup d) : dictCount (dictInsert d k v) k = 1 := by
  induction d with
  | nil => simp [dictInsert, dictCount, List.countP_cons]
  | cons p rest ih =>
    obtain ⟨k2, w⟩ := p
    have hn : dictNodup rest := (List.nodup_cons.mp h).2
    by_cases h1 : k2 = k
    · have hni : k2 ∉ rest.map Prod.fst := (List.nodup_cons.mp h).1
      have hz : dictCount rest k = 0 := dictCount_eq_zero rest k (h1 ▸ hni)
      simp only [dictInsert, if_pos h1, dictCount, List.countP_cons] at hz ⊢
      simp [h1, hz]
    · have hi := ih hn
      simp only [dictInsert, if_neg h1, dictCount, List.countP_cons] at hi ⊢
      simp [h1, hi]

theorem dictGet_mem {α : Type} (d : Dict α) (k : String) (v : α)
    (h : dictGet d k = some v) : (k, v) ∈ d := by
  induction d with
  | nil => simp [dictGet] at h
  | cons p rest ih =>
    obtain ⟨k2, w⟩ := p
    by_cases h1 : k2 = k
    · simp only [dictGet, if_pos h1, Option.some.injEq] at h
      subst h h1
      exact List.mem_cons_self _ _
    · simp only [dictGet, if_neg h1] at h
      exact List.mem_cons_of_mem _ (ih h)

/-! ## Claim C5: registry rekeying -/

/-- C5: if the bridge is registered under handle H1 and the connected event
supplies a different, nonempty authoritative identifier H2, then after
lines 179-181 run a lookup by H2 returns the handle a lookup by H1 returned
before, a lookup by H1 returns absent, exactly one entry carries key H2, and
with H2 equal to H1 the operation leaves the table unchanged. -/
theorem rekey_moves_handle (d : Dict Nat) (h1 h2 : String) (conn : Nat)
    (hnd : dictNodup d) (hget : dictGet d h1 = some conn) (hne : h2 ≠ h1)
    (hempty : h2 ≠ "") :
    dictGet (rekey_active d h1 h2) h2 = some conn ∧
    dictGet (rekey_active d h1 h2) h1 = none ∧
    dictCount (rekey_active d h1 h2) h2 = 1 ∧
    rekey_active d h1 h1 = d := by
  have hcond : h2 ≠ "" ∧ h2 ≠ h1 := ⟨hempty, hne⟩
  refine ⟨?_, ?_, ?_, ?_⟩
  · simp only [rekey_active, if_pos hcond, hget]
    exact dictGet_insert_self _ _ _
  · simp only [rekey_active, if_pos hcond, hget]
    rw [dictGet_insert_ne _ _ _ _ hne]
    exact dictGet_pop_self d h1 hnd
  · simp only [rekey_active, if_pos hcond, hget]
    exact dictCount_insert_self _ _ _ (dictNodup_pop d h1 hnd)
  · simp [rekey_active]

/-- Witness for C5 at a concrete registry state. -/
theorem rekey_moves_handle_witness :
    dictNodup [("CA100", 7), ("CA200", 8)] ∧
    dictGet [("CA100", 7), ("CA200", 8)] "CA100" = some 7 ∧
    dictGet (rekey_active [("CA100", 7), ("CA200", 8)] "CA100" "CA900") "CA900" =
      some 7 ∧
    dictGet (rekey_active [("CA100", 7), ("CA200", 8)] "CA100" "CA900") "CA100" =
      none := by
  refine ⟨by decide, by decide, ?_, ?_⟩
  · exact (rekey_moves_handle [("CA100", 7), ("CA200", 8)] "CA100" "CA900" 7
      (by decide) (by decide) (by decide) (by decide)).1
  · exact (rekey_moves_handle [("CA100", 7), ("CA200", 8)] "CA100" "CA900" 7
      (by decide) (by decide) (by decide) (by decide)).2.1

/-! ## Claim C8: identity resolution order -/

/-- Whether the pending-mapping entry for `k` short-circuits `fetch_call_id`
(a truthy stored call id, or the outgoing flag with an attached leg id). -/
def pending_short (tbl : Tables) (k : String) : Bool :=
  match dictGet tbl.incoming k with
  | some m => truthyS m.call_id || (m.is_outgoing && truthyS m.twilio_call_sid)
  | none => false

/-- Pending entry used by the C8 counterexample: an outgoing call whose
call-id field is unset but whose transport leg id is attached. -/
def entryC8 : IncomingEntry :=
  { call_id := none, fromNum := "+15550001", timestamp := 0,
    is_outgoing := true, twilio_call_sid := some "CA900",
    initial_prompts := [] }

/-- Tables used by the C8 counterexample: agent key `A1` maps to original
`O1`, which holds `entryC8`. -/
def tblC8 : Tables :=
  { incoming := [("O1", entryC8)], agent := [("A1", "O1")], active := [] }

/-- External-lookup oracle that always misses. -/
def extNone : String → Option String := fun _ => none

/-- C8 counterexample: at the agent-leg step the source does a direct
pending-mapping lookup on the mapped original identifier and returns its
(possibly absent) call-id field, it does not recurse as the claim states:
on `tblC8` the code returns no result and performs no external query, while
the claimed recursive resolution reaches step (b) for the original
identifier and returns it. -/
theorem fetch_call_id_agent_counterexample :
    fetch_call_id tblC8 extNone "A1" = (none, false) ∧
    fetch_call_id_specside 9 tblC8 extNone "A1" = some "O1" ∧
    (fetch_call_id tblC8 extNone "A1").1 ≠
      fetch_call_id_specside 9 tblC8 extNone "A1" := by
  decide

/-- C8 amended: `fetch_call_id` resolves in order (a) the truthy call-id
field of the pending entry for k; (b) k itself when that entry is flagged
outgoing with a leg id attached; (c) when k is an agent-mapping key whose
mapped original identifier has a pending entry, the call-id field of that
entry — a direct lookup, returned even when absent, skipping the external
fallback; (d) otherwise one external query by k.  The handler short-circuits
an identifier already in Prisma call-id format with no network query, and
resolution is read-only (the embedding is a pure function of the tables). -/
theorem fetch_call_id_resolution_amended (tbl : Tables)
    (ext : String → Option String) (k : String) :
    (∀ m, dictGet tbl.incoming k = some m → truthyS m.call_id →
      fetch_call_id tbl ext k = (m.call_id, false)) ∧
    (∀ m, dictGet tbl.incoming k = some m → ¬ truthyS m.call_id →
      m.is_outgoing && truthyS m.twilio_call_sid →
      fetch_call_id tbl ext k = (some k, false)) ∧
    (pending_short tbl k = false →
      ∀ o m2, dictGet tbl.agent k = some o →
        dictGet tbl.incoming o = some m2 →
        fetch_call_id tbl ext k = (m2.call_id, false)) ∧
    (pending_short tbl k = false → dictGet tbl.agent k = none →
      fetch_call_id tbl ext k = (ext k, true)) ∧
    (pending_short tbl k = false →
      ∀ o, dictGet tbl.agent k = some o → dictGet tbl.incoming o = none →
      fetch_call_id tbl ext k = (ext k, true)) ∧
    (is_prisma_call_id k →
      resolve_call_id_handler tbl ext k = (some k, false)) := by
  refine ⟨?_, ?_, ?_, ?_, ?_, ?_⟩
  · intro m hm ht
    simp [fetch_call_id, hm, ht]
  · intro m hm ht1 ht2
    simp [fetch_call_id, hm, ht1, ht2]
  · intro hs o m2 ha hi
    cases hk : dictGet tbl.incoming k with
    | none => simp [fetch_call_id, hk, fetch_call_id_rest, ha, hi]
    | some m =>
      simp only [pending_short, hk, Bool.or_eq_false_iff] at hs
      simp [fetch_call_id, hk, fetch_call_id_rest, ha, hi, hs.1, hs.2]
  · intro hs ha
    cases hk : dictGet tbl.incoming k with
    | none => simp [fetch_call_id, hk, fetch_call_id_rest, ha]
    | some m =>
      simp only [pending_short, hk, Bool.or_eq_false_iff] at hs
      simp [fetch_call_id, hk, fetch_call_id_rest, ha, hs.1, hs.2]
  · intro hs o ha hi
    cases hk : dictGet tbl.incoming k with
    | none => simp [fetch_call_id, hk, fetch_call_id_rest, ha, hi]
    | some m =>
      simp only [pending_short, hk, Bool.or_eq_false_iff] at hs
      simp [fetch_call_id, hk, fetch_call_id_rest, ha, hi, hs.1, hs.2]
  · intro hp
    simp [resolve_call_id_handler, hp]

/-- Pending entry with a stored call id, for the C8 witness. -/
def entryC8w : IncomingEntry :=
  { call_id := some "cm_direct_hit_000001", fromNum := "+15550002",
    timestamp := 0, is_outgoing := false, twilio_call_sid := none,
    initial_prompts := [] }

/-- Tables for the C8 witness. -/
def tblC8w : Tables :=
  { incoming := [("CA555", entryC8w)], agent := [], active := [] }

/-- Empty tables. -/
def tblEmpty : Tables :=
  { incoming := [], agent := [], active := [] }

/-- Witness for C8: branch (a) at a concrete table, and the Prisma-format
short-circuit at a concrete identifier. -/
theorem fetch_call_id_resolution_amended_witness :
    dictGet tblC8w.incoming "CA555" = some entryC8w ∧
    truthyS entryC8w.call_id = true ∧
    fetch_call_id tblC8w extNone "CA555" = (some "cm_direct_hit_000001", false) ∧
    is_prisma_call_id "cm_direct_hit_000001" = true ∧
    resolve_call_id_handler tblEmpty extNone "cm_direct_hit_000001" =
      (some "cm_direct_hit_000001", false) := by
  refine ⟨by decide, by decide, ?_, by decide, ?_⟩
  · exact (fetch_call_id_resolution_amended tblC8w extNone "CA555").1 entryC8w
      (by decide) (by decide)
  · exact (fetch_call_id_resolution_amended tblEmpty extNone
      "cm_direct_hit_000001").2.2.2.2.2 (by decide)

/-! ## Stripping lemmas (for claim C9) -/

theorem head_dropWhile_not_ws (l : List Char) (c : Char)
    (hc : (l.dropWhile isWs).head? = some c) : isWs c = false := by
  induction l with
  | nil => simp [List.dropWhile] at hc
  | cons a l ih =>
    by_cases h : isWs a
    · rw [List.dropWhile_cons, if_pos h] at hc
      exact ih hc
    · rw [List.dropWhile_cons, if_neg h] at hc
      simp only [List.head?_cons, Option.some.injEq] at hc
      subst hc
      simpa using h

theorem dropWhile_eq_self_of_head (l : List Char)
    (h : ∀ c, l.head? = some c → isWs c = false) : l.dropWhile isWs = l := by
  cases l with
  | nil => rfl
  | cons a l => simp [List.dropWhile_cons, h a rfl]

theorem getLast_dropWhile_ws (w : List Char) (h : w.dropWhile isWs ≠ []) :
    (w.dropWhile isWs).getLast? = w.getLast? := by
  induction w with
  | nil => simp at h
  | cons a w ih =>
    by_cases ha : isWs a
    · rw [List.dropWhile_cons, if_pos ha] at h ⊢
      rw [ih h]
      cases w with
      | nil => rw [List.dropWhile] at h; simp at h
      | cons b w2 => rw [List.getLast?_cons_cons]
    · rw [List.dropWhile_cons, if_neg ha]

/-- The characters of a stripped list: leading and trailing character (when
present) are not whitespace. -/
theorem stripList_ends (l : List Char) :
    (∀ c, (((l.dropWhile isWs).reverse.dropWhile isWs).reverse.head? = some c) →
      isWs c = false) ∧
    (∀ c, (((l.dropWhile isWs).reverse.dropWhile isWs).reverse.getLast? = some c) →
      isWs c = false) := by
  constructor
  · intro c hc
    rw [List.head?_reverse] at hc
    by_cases hu : (l.dropWhile isWs).reverse.dropWhile isWs = []
    · rw [hu] at hc
      simp at hc
    · rw [getLast_dropWhile_ws _ hu, List.getLast?_reverse] at hc
      exact head_dropWhile_not_ws l c hc
  · intro c hc
    rw [List.getLast?_reverse] at hc
    exact head_dropWhile_not_ws _ c hc

/-- Model of Python `str.strip()` being idempotent. -/
theorem pstrip_idem (s : String) : pstrip (pstrip s) = pstrip s := by
  have hends := stripList_ends s.toList
  show String.mk _ = _
  unfold pstrip
  have ht : (String.mk (((s.toList.dropWhile isWs).reverse.dropWhile
      isWs).reverse)).toList =
      ((s.toList.dropWhile isWs).reverse.dropWhile isWs).reverse := rfl
  rw [ht]
  rw [dropWhile_eq_self_of_head _ hends.1]
  have h2 : ∀ c, ((((s.toList.dropWhile isWs).reverse.dropWhile
      isWs).reverse).reverse.head? = some c) → isWs c = false := by
    intro c hc
    rw [List.head?_reverse] at hc
    exact hends.2 c hc
  rw [dropWhile_eq_self_of_head _ h2, List.reverse_reverse]

/-! ## Claim C9: initial-prompt deduplication -/

/-- On empty existing transcripts the sending loop sends every non-blank
prompt, stripped, in order. -/
theorem check_send_loop_nil (ps : List String) :
    check_send_loop [] ps = (ps.filter (fun p => !(pstrip p == ""))).map pstrip := by
  induction ps with
  | nil => rfl
  | cons p ps ih =>
    by_cases h : pstrip p = ""
    · simp [check_send_loop, h, prompt_exists, List.filter_cons, ih]
    · simp [check_send_loop, h, prompt_exists, List.filter_cons, ih]

/-- Every text the loop sends is a stripped prompt that did not already
exist. -/
theorem mem_check_send_loop (existing : List TEntry) (ps : List String)
    (x : String) (hx : x ∈ check_send_loop existing ps) :
    ∃ q ∈ ps, x = pstrip q ∧ prompt_exists existing q = false := by
  induction ps with
  | nil => simp [check_send_loop] at hx
  | cons p ps ih =>
    by_cases h : pstrip p = ""
    · rw [check_send_loop, if_pos h] at hx
      obtain ⟨q, hq, hrest⟩ := ih hx
      exact ⟨q, List.mem_cons_of_mem _ hq, hrest⟩
    · rw [check_send_loop, if_neg h] at hx
      by_cases he : prompt_exists existing p
      · rw [if_pos he] at hx
        obtain ⟨q, hq, hrest⟩ := ih hx
        exact ⟨q, List.mem_cons_of_mem _ hq, hrest⟩
      · rw [if_neg he] at hx
        rcases List.mem_cons.mp hx with h1 | h1
        · exact ⟨p, List.mem_cons_self _ _, h1, by simpa using he⟩
        · obtain ⟨q, hq, hrest⟩ := ih h1
          exact ⟨q, List.mem_cons_of_mem _ hq, hrest⟩

/-- When every non-blank prompt already exists, the loop sends nothing. -/
theorem check_send_loop_all_exist (existing : List TEntry) (ps : List String)
    (h : ∀ p ∈ ps, pstrip p ≠ "" → prompt_exists existing p = true) :
    check_send_loop existing ps = [] := by
  induction ps with
  | nil => rfl
  | cons p ps ih =>
    by_cases hb : pstrip p = ""
    · rw [check_send_loop, if_pos hb]
      exact ih fun q hq => h q (List.mem_cons_of_mem _ hq)
    · rw [check_send_loop, if_neg hb, if_pos (h p (List.mem_cons_self _ _) hb)]
      exact ih fun q hq => h q (List.mem_cons_of_mem _ hq)

/-- The existence test only depends on the stripped prompt. -/
theorem prompt_exists_congr (existing : List TEntry) (p q : String)
    (h : pstrip p = pstrip q) :
    prompt_exists existing p = prompt_exists existing q := by
  simp [prompt_exists, h]

/-- A stripped text that was sent is matched by the existence test. -/
theorem prompt_exists_sentEntries (sent : List String) (ts : Int) (p : String)
    (h : pstrip p ∈ sent) (hidem : ∀ x ∈ sent, pstrip x = x) :
    prompt_exists (sentEntries sent ts) p = true := by
  rw [prompt_exists, List.any_eq_true]
  refine ⟨{ text := pstrip p, speaker := SPEAKER_ADMIN, timestamp := ts }, ?_, ?_⟩
  · simp only [sentEntries, List.mem_map]
    exact ⟨pstrip p, h, rfl⟩
  · simp [hidem _ h]

/-- C9 counterexample: with the fixed list holding the same objective twice,
the first invocation already sends it twice (the existing-transcripts set is
consulted but not updated during the loop), so across the two invocations
the distinct objective is sent twice, not exactly once. -/
theorem initial_prompts_dedup_counterexample :
    check_and_send_initial_prompts "cm_counterexample01" ["Objective A", "Objective A"]
      [] false = ["Objective A", "Objective A"] ∧
    check_and_send_initial_prompts "cm_counterexample01" ["Objective A", "Objective A"]
      (sentEntries ["Objective A", "Objective A"] 0) false = [] ∧
    (check_and_send_initial_prompts "cm_counterexample01" ["Objective A", "Objective A"]
        [] false ++
      check_and_send_initial_prompts "cm_counterexample01" ["Objective A", "Objective A"]
        (sentEntries ["Objective A", "Objective A"] 0) false).count
      "Objective A" = 2 := by
  decide

/-- C9 amended: for a list of initial objectives whose non-blank entries have
pairwise-distinct stripped texts, invoking the operation twice (the second
invocation seeing the admin transcripts recorded by the first) sends each
distinct non-blank objective exactly once overall, and an objective whose
stripped text already appears among existing admin transcripts is never
sent. -/
theorem initial_prompts_dedup_amended (cid : String) (prompts : List String)
    (hcid : cid ≠ "")
    (hnd : ((prompts.filter (fun p => !(pstrip p == ""))).map pstrip).Nodup) :
    (∀ q ∈ prompts, pstrip q ≠ "" →
      (check_and_send_initial_prompts cid prompts [] false).count (pstrip q) = 1) ∧
    check_and_send_initial_prompts cid prompts
      (sentEntries (check_and_send_initial_prompts cid prompts [] false) 0)
      false = [] ∧
    (∀ existing p, prompt_exists existing p = true →
      pstrip p ∉ check_and_send_initial_prompts cid prompts existing false) := by
  have hempty : cid.isEmpty = false := by
    cases hi : cid.isEmpty
    · rfl
    · exact absurd ((String.isEmpty_iff cid).mp hi) hcid
  refine ⟨?_, ?_, ?_⟩
  · intro q hq hqs
    cases hp : prompts.isEmpty
    · rw [check_and_send_initial_prompts]
      simp only [hempty, hp, Bool.false_or, Bool.or_false, if_false]
      rw [check_send_loop_nil]
      have hmem : pstrip q ∈ (prompts.filter (fun p => !(pstrip p == ""))).map pstrip := by
        refine List.mem_map.mpr ⟨q, List.mem_filter.mpr ⟨hq, ?_⟩, rfl⟩
        simp [hqs]
      exact List.count_eq_one_of_mem hnd hmem
    · rw [List.isEmpty_iff] at hp
      subst hp
      simp at hq
  · cases hp : prompts.isEmpty
    · have hs1 : check_and_send_initial_prompts cid prompts [] false =
          (prompts.filter (fun p => !(pstrip p == ""))).map pstrip := by
        rw [check_and_send_initial_prompts]
        simp only [hempty, hp, Bool.false_or, Bool.or_false, if_false]
        exact check_send_loop_nil prompts
      rw [check_and_send_initial_prompts]
      simp only [hempty, hp, Bool.false_or, Bool.or_false, if_false]
      apply check_send_loop_all_exist
      intro p hp2 hps
      apply prompt_exists_sentEntries
      · rw [hs1]
        refine List.mem_map.mpr ⟨p, List.mem_filter.mpr ⟨hp2, ?_⟩, rfl⟩
        simp [hps]
      · intro x hx
        rw [hs1] at hx
        obtain ⟨q, _, hq2⟩ := List.mem_map.mp hx
        rw [← hq2]
        exact pstrip_idem q
    · rw [List.isEmpty_iff] at hp
      subst hp
      rw [check_and_send_initial_prompts]
      simp
  · intro existing p hex hmem
    rw [check_and_send_initial_prompts] at hmem
    by_cases hguard : false || prompts.isEmpty || cid.isEmpty
    · rw [if_pos hguard] at hmem
      simp at hmem
    · rw [if_neg hguard] at hmem
      obtain ⟨q, _, hq2, hq3⟩ := mem_check_send_loop existing prompts _ hmem
      rw [prompt_exists_congr existing q p hq2.symm] at hq3
      rw [hex] at hq3
      exact Bool.true_eq_false.mp hq3

/-- Witness for C9 at a concrete prompt list with distinct objectives. -/
theorem initial_prompts_dedup_amended_witness :
    ("cm_witness000000001" ≠ "") ∧
    ((["Objective A", " Objective B "].filter
      (fun p => !(pstrip p == ""))).map pstrip).Nodup ∧
    (check_and_send_initial_prompts "cm_witness000000001"
      ["Objective A", " Objective B "] [] false).count "Objective A" = 1 ∧
    check_and_send_initial_prompts "cm_witness000000001"
      ["Objective A", " Objective B "]
      (sentEntries (check_and_send_initial_prompts "cm_witness000000001"
        ["Objective A", " Objective B "] [] false) 0) false = [] := by
  refine ⟨by decide, by decide, ?_, ?_⟩
  · have h := (initial_prompts_dedup_amended "cm_witness000000001"
      ["Objective A", " Objective B "] (by decide) (by decide)).1
    have h2 := h "Objective A" (by decide) (by decide)
    simpa using h2
  · exact (initial_prompts_dedup_amended "cm_witness000000001"
      ["Objective A", " Objective B "] (by decide) (by decide)).2.1

/-! ## Claim C1: barge-in -/

/-- C1: when a `speech_started` message arrives while the current item id and
the response-start timestamp T0 are both set, the loop emits exactly one
truncate message carrying that item id and `audio_end_ms = latestTs - T0`,
then the `clear` frame to telephony, strictly before any output produced for
later backend messages (in particular any further audio for the interrupted
item), and continues with both trackers reset to empty. -/
theorem barge_in_truncate_clear_reset (b : BridgeState) (i : String) (t0 : Int)
    (ms : List OAIMsg) (hitem : b.lastItem = some i) (hne : i ≠ "")
    (ht0 : b.responseStartTs = some t0) (htw : b.twilioOpen = true) :
    sendLoop b (OAIMsg.speechStarted :: ms) =
      ((sendLoop { b with lastItem := none, responseStartTs := none } ms).1,
        Out.truncateItem i 0 (b.latestTs - t0) :: Out.twilioClear b.streamSid ::
          (sendLoop { b with lastItem := none, responseStartTs := none } ms).2) := by
  simp [sendLoop, sendStep, on_speech_started, hitem, ht0, htw, hne]

/-- Bridge state used by the C1 witness: mid-response, item `item_9`
speaking, response started at telephony time 400, latest timestamp 1500. -/
def bC1 : BridgeState :=
  { streamSid := some "MZ77", latestTs := 1500, responseStartTs := some 400,
    lastItem := some "item_9", callId := some "cm_witness000000001",
    actualCallSid := none, openaiOpen := true, twilioOpen := true,
    lpLocal := none, lpsLocal := none }

/-- Witness for C1 at a concrete state and message list. -/
theorem barge_in_truncate_clear_reset_witness :
    bC1.lastItem = some "item_9" ∧ bC1.responseStartTs = some 400 ∧
    bC1.twilioOpen = true ∧
    sendLoop bC1 (OAIMsg.speechStarted :: [OAIMsg.audioDelta (some "QUJD") none]) =
      ((sendLoop { bC1 with lastItem := none, responseStartTs := none }
          [OAIMsg.audioDelta (some "QUJD") none]).1,
        Out.truncateItem "item_9" 0 (1500 - 400) :: Out.twilioClear (some "MZ77") ::
          (sendLoop { bC1 with lastItem := none, responseStartTs := none }
            [OAIMsg.audioDelta (some "QUJD") none]).2) :=
  ⟨rfl, rfl, rfl,
    barge_in_truncate_clear_reset bC1 "item_9" 400
      [OAIMsg.audioDelta (some "QUJD") none] rfl (by decide) rfl rfl⟩

/-! ## Claim C4: audio-delta routing -/

/-- C4: a `response.audio.delta` (carrying a payload) that arrives while the
stream routing token is unknown is dropped with a logged warning — no
telephony frame is produced and the state keeps nothing of the payload (only
the turn trackers of lines 263-266 advance); once the token is known every
such delta is forwarded as exactly one `media` frame addressed to that
streamSid, with the payload decoded from and re-encoded to base64; the
`start` event of the telephony loop is what records the token. -/
theorem audio_delta_drop_or_forward (b : BridgeState) (delta : String)
    (item : Option String) (hd : delta ≠ "") :
    (b.streamSid = none →
      sendStep b (.audioDelta (some delta) item) =
        (delta_trackers b item, [Out.warn "stream-sid-not-set"], false)) ∧
    (∀ sid, b.streamSid = some sid → b.twilioOpen = true →
      sendStep b (.audioDelta (some delta) item) =
        (delta_trackers b item, [Out.twilioMedia sid (reencodeB64 delta)], false)) ∧
    (∀ pathSid ext ftx s sid2,
      recvStep pathSid ext ftx s (.start sid2) =
        .ok ({ s with br := { s.br with streamSid := some sid2 } }, [], false)) := by
  have hds : (some delta).getD "" = delta := rfl
  have ht : truthyS (some delta) = true := by
    cases hi : delta.isEmpty
    · simp [truthyS, hi]
    · exact absurd ((String.isEmpty_iff delta).mp hi) hd
  refine ⟨?_, ?_, ?_⟩
  · intro hsid
    simp [sendStep, hsid, ht]
  · intro sid hsid htw
    simp [sendStep, hsid, ht, htw]
  · intro pathSid ext ftx s sid2
    rfl

/-- Bridge state used by the C4 witness before the routing token is known. -/
def bC4 : BridgeState :=
  { streamSid := none, latestTs := 1000, responseStartTs := none,
    lastItem := none, callId := some "cm_witness000000001",
    actualCallSid := none, openaiOpen := true, twilioOpen := true,
    lpLocal := none, lpsLocal := none }

/-- Witness for C4: the same delta is dropped with no token and forwarded,
re-encoded and addressed to `MZxyz`, once the token is known. -/
theorem audio_delta_drop_or_forward_witness :
    ("QUJD" ≠ "") ∧
    sendStep bC4 (.audioDelta (some "QUJD") (some "item_1")) =
      (delta_trackers bC4 (some "item_1"), [Out.warn "stream-sid-not-set"],
        false) ∧
    sendStep { bC4 with streamSid := some "MZxyz" }
      (.audioDelta (some "QUJD") (some "item_1")) =
      (delta_trackers { bC4 with streamSid := some "MZxyz" } (some "item_1"),
        [Out.twilioMedia "MZxyz" (reencodeB64 "QUJD")], false) :=
  ⟨by decide,
    (audio_delta_drop_or_forward bC4 "QUJD" (some "item_1") (by decide)).1 rfl,
    (audio_delta_drop_or_forward { bC4 with streamSid := some "MZxyz" } "QUJD"
      (some "item_1") (by decide)).2.1 "MZxyz" rfl rfl⟩

/-! ## Claim C10: unbound loop-locals in recv_twilio -/

/-- C10: `initial_prompts` and `initial_prompts_sent` are assigned inside
`recv_twilio` without a `nonlocal` declaration, so they are loop-locals,
unbound until first assigned.  A `connected` event whose sid differs from the
path handle and has a pending entry with non-empty prompts, arriving while
the call identifier is set, reads the unbound `initial_prompts_sent` and
raises; the generic exception handler closes the backend connection and the
loop exits, processing none of the remaining events.  Likewise the branch
that first resolves the call identifier reads the unbound
`initial_prompts`. -/
theorem recv_unbound_local_exits_loop (s : SysState) (a : String)
    (entry : IncomingEntry) (pathSid : String) (ext : String → Option String)
    (ftx : List TEntry) (rest : List TwilioEvent) (cid : String)
    (ha1 : a ≠ "") (ha2 : a ≠ pathSid)
    (hin : dictGet s.tables.incoming a = some entry)
    (hpr : entry.initial_prompts ≠ [])
    (hcid : s.br.callId = some cid) (hcne : cid ≠ "")
    (hlps : s.br.lpsLocal = none) (hopen : s.br.openaiOpen = true) :
    recvStep pathSid ext ftx s (.connected (some a)) =
      .error (.unboundLocal "initial_prompts_sent") ∧
    recvLoop pathSid ext ftx s (.connected (some a) :: rest) =
      ({ s with br := { s.br with openaiOpen := false } },
        [Out.closeBackend], .errExit) ∧
    (∀ s2 : SysState, s2.br.lpLocal = none → s2.br.callId = none →
      dictGet s2.tables.incoming a = none →
      truthyS (fetch_call_id s2.tables ext a).1 = true →
      recvStep pathSid ext ftx s2 (.connected (some a)) =
        .error (.unboundLocal "initial_prompts")) := by
  have hct : truthyS (some cid) = true := by
    cases hi : cid.isEmpty
    · simp [truthyS, hi]
    · exact absurd ((String.isEmpty_iff cid).mp hi) hcne
  have hstep : recvStep pathSid ext ftx s (.connected (some a)) =
      .error (.unboundLocal "initial_prompts_sent") := by
    rw [recvStep]
    rw [show recvConnectedPrompts pathSid ftx s.tables
        { s.br with actualCallSid := some a } (some a) =
        .error (.unboundLocal "initial_prompts_sent") from ?_]
    · rw [recvConnectedPrompts]
      simp [ha1, ha2, hin, hpr, hcid, hct, hlps]
  refine ⟨hstep, ?_, ?_⟩
  · rw [recvLoop, hstep, hopen]
    simp
  · intro s2 hlp hc2 hin2 hfet
    have hp : recvConnectedPrompts pathSid ftx s2.tables
        { s2.br with actualCallSid := some a } (some a) =
        .ok ({ s2.br with actualCallSid := some a }, []) := by
      rw [recvConnectedPrompts]
      simp [ha1, ha2, hin2]
    have hr : recvConnectedResolve ext ftx s2.tables
        { s2.br with actualCallSid := some a } (some a) =
        .error (.unboundLocal "initial_prompts") := by
      rw [recvConnectedResolve]
      simp [ha1, hc2, hfet, hlp]
    rw [recvStep, hp]
    dsimp only
    rw [hr]

/-- Pending entry used by the C10 witness. -/
def entryC10 : IncomingEntry :=
  { call_id := some "cm_witness000000001", fromNum := "+15550003",
    timestamp := 5, is_outgoing := false, twilio_call_sid := none,
    initial_prompts := ["Ask about invoices"] }

/-- System state used by the C10 witness: call id resolved, loop-locals
still unbound, backend open. -/
def sC10 : SysState :=
  { tables := { incoming := [("CA777", entryC10)], agent := [], active := [] },
    br := { streamSid := none, latestTs := 0, responseStartTs := none,
            lastItem := none, callId := some "cm_witness000000001",
            actualCallSid := none, openaiOpen := true, twilioOpen := true,
            lpLocal := none, lpsLocal := none } }

/-- Witness for C10 at a concrete state and event. -/
theorem recv_unbound_local_exits_loop_witness :
    dictGet sC10.tables.incoming "CA777" = some entryC10 ∧
    sC10.br.callId = some "cm_witness000000001" ∧
    sC10.br.lpsLocal = none ∧
    recvStep "CA123" extNone [] sC10 (.connected (some "CA777")) =
      .error (.unboundLocal "initial_prompts_sent") ∧
    recvLoop "CA123" extNone [] sC10
      [.connected (some "CA777"), .media 1000 "AA==", .stop] =
      ({ sC10 with br := { sC10.br with openaiOpen := false } },
        [Out.closeBackend], .errExit) := by
  have h := recv_unbound_local_exits_loop sC10 "CA777" entryC10 "CA123" extNone
    [] [.media 1000 "AA==", .stop] "cm_witness000000001" (by decide) (by decide)
    (by decide) (by decide) rfl (by decide) rfl rfl
  exact ⟨by decide, rfl, rfl, h.1, h.2.1⟩

/-! ## Claim C2: mutual close -/

/-- A step that reports the stop flag comes from the `stop` event and leaves
the backend connection closed. -/
theorem recvStep_stop_closes (pathSid : String) (ext : String → Option String)
    (ftx : List TEntry) (s : SysState) (e : TwilioEvent) (s2 : SysState)
    (outs : List Out)
    (hstep : recvStep pathSid ext ftx s e = .ok (s2, outs, true)) :
    s2.br.openaiOpen = false := by
  cases e with
  | connected a =>
    rw [recvStep.eq_def] at hstep
    dsimp only at hstep
    cases hp : recvConnectedPrompts pathSid ftx s.tables
        { s.br with actualCallSid := a } a with
    | error err => simp [hp] at hstep
    | ok r1 =>
      obtain ⟨b1, outs1⟩ := r1
      cases hr : recvConnectedResolve ext ftx s.tables b1 a with
      | error err => simp [hp, hr] at hstep
      | ok r2 =>
        obtain ⟨b2, outs2⟩ := r2
        simp [hp, hr] at hstep
  | media ts payload =>
    rw [recvStep.eq_def] at hstep
    dsimp only at hstep
    by_cases h : s.br.openaiOpen = true
    · rw [if_pos h] at hstep
      simp at hstep
    · rw [if_neg h] at hstep
      simp at hstep
  | start sid =>
    rw [recvStep.eq_def] at hstep
    simp at hstep
  | stop =>
    rw [recvStep.eq_def] at hstep
    dsimp only at hstep
    by_cases h : s.br.openaiOpen = true
    · rw [if_pos h] at hstep
      simp only [Except.ok.injEq, Prod.mk.injEq] at hstep
      rw [← hstep.1]
    · rw [if_neg h] at hstep
      simp only [Except.ok.injEq, Prod.mk.injEq] at hstep
      rw [← hstep.1]
      simpa using h
  | other n =>
    rw [recvStep.eq_def] at hstep
    simp at hstep

/-- A successful run of the prompts block leaves the backend-open flag
untouched (it only writes the loop-locals). -/
theorem recvConnectedPrompts_open (pathSid : String) (ftx : List TEntry)
    (tbl : Tables) (b : BridgeState) (a? : Option String) (b1 : BridgeState)
    (outs : List Out)
    (h : recvConnectedPrompts pathSid ftx tbl b a? = .ok (b1, outs)) :
    b1.openaiOpen = b.openaiOpen := by
  rw [recvConnectedPrompts.eq_def] at h
  cases a? with
  | none =>
    dsimp only at h
    simp only [Except.ok.injEq, Prod.mk.injEq] at h
    rw [← h.1]
  | some a =>
    dsimp only at h
    by_cases h1 : a ≠ "" ∧ a ≠ pathSid
    · rw [if_pos h1] at h
      cases hg : dictGet tbl.incoming a with
      | none =>
        rw [hg] at h
        simp only [Except.ok.injEq, Prod.mk.injEq] at h
        rw [← h.1]
      | some entry =>
        rw [hg] at h
        dsimp only at h
        by_cases h2 : entry.initial_prompts ≠ []
        · rw [if_pos h2] at h
          by_cases h3 : truthyS b.callId = true
          · rw [if_pos h3] at h
            cases hl : b.lpsLocal with
            | none =>
              rw [hl] at h
              simp at h
            | some sentFlag =>
              rw [hl] at h
              dsimp only at h
              by_cases h4 : (!sentFlag) = true
              · rw [if_pos h4] at h
                simp only [Except.ok.injEq, Prod.mk.injEq] at h
                rw [← h.1]
              · rw [if_neg h4] at h
                simp only [Except.ok.injEq, Prod.mk.injEq] at h
                rw [← h.1]
          · rw [if_neg h3] at h
            simp only [Except.ok.injEq, Prod.mk.injEq] at h
            rw [← h.1]
        · rw [if_neg h2] at h
          simp only [Except.ok.injEq, Prod.mk.injEq] at h
          rw [← h.1]
    · rw [if_neg h1] at h
      simp only [Except.ok.injEq, Prod.mk.injEq] at h
      rw [← h.1]

/-- A successful run of the resolution block leaves the backend-open flag
untouched (it only writes the call id and the loop-locals). -/
theorem recvConnectedResolve_open (ext : String → Option String)
    (ftx : List TEntry) (tbl : Tables) (b : BridgeState) (a? : Option String)
    (b1 : BridgeState) (outs : List Out)
    (h : recvConnectedResolve ext ftx tbl b a? = .ok (b1, outs)) :
    b1.openaiOpen = b.openaiOpen := by
  rw [recvConnectedResolve.eq_def] at h
  cases a? with
  | none =>
    dsimp only at h
    simp only [Except.ok.injEq, Prod.mk.injEq] at h
    rw [← h.1]
  | some a =>
    dsimp only at h
    by_cases h1 : a ≠ "" ∧ ¬ truthyS b.callId = true
    · rw [if_pos h1] at h
      by_cases h2 : truthyS (fetch_call_id tbl ext a).1 = true
      · rw [if_pos h2] at h
        cases hl : b.lpLocal with
        | none =>
          rw [hl] at h
          simp at h
        | some lp =>
          rw [hl] at h
          dsimp only at h
          by_cases h3 : lp ≠ []
          · rw [if_pos h3] at h
            cases hs : b.lpsLocal with
            | none =>
              rw [hs] at h
              simp at h
            | some sentFlag =>
              rw [hs] at h
              dsimp only at h
              by_cases h4 : (!sentFlag) = true
              · rw [if_pos h4] at h
                simp only [Except.ok.injEq, Prod.mk.injEq] at h
                rw [← h.1]
              · rw [if_neg h4] at h
                simp only [Except.ok.injEq, Prod.mk.injEq] at h
                rw [← h.1]
          · rw [if_neg h3] at h
            simp only [Except.ok.injEq, Prod.mk.injEq] at h
            rw [← h.1]
      · rw [if_neg h2] at h
        simp only [Except.ok.injEq, Prod.mk.injEq] at h
        rw [← h.1]
    · rw [if_neg h1] at h
      simp only [Except.ok.injEq, Prod.mk.injEq] at h
      rw [← h.1]

/-- A non-stop successful iteration of `recv_twilio` never changes the
backend-open flag: only the `stop` branch and the generic exception handler
close the backend connection. -/
theorem recvStep_ok_preserves_open (pathSid : String)
    (ext : String → Option String) (ftx : List TEntry) (s : SysState)
    (e : TwilioEvent) (s2 : SysState) (outs : List Out)
    (h : recvStep pathSid ext ftx s e = .ok (s2, outs, false)) :
    s2.br.openaiOpen = s.br.openaiOpen := by
  cases e with
  | connected a =>
    rw [recvStep.eq_def] at h
    dsimp only at h
    cases hp : recvConnectedPrompts pathSid ftx s.tables
        { s.br with actualCallSid := a } a with
    | error err => simp [hp] at h
    | ok r1 =>
      obtain ⟨b1, outs1⟩ := r1
      cases hr : recvConnectedResolve ext ftx s.tables b1 a with
      | error err => simp [hp, hr] at h
      | ok r2 =>
        obtain ⟨b2, outs2⟩ := r2
        rw [hp] at h
        dsimp only at h
        rw [hr] at h
        dsimp only at h
        simp only [Except.ok.injEq, Prod.mk.injEq] at h
        rw [← h.1]
        dsimp only
        rw [recvConnectedResolve_open ext ftx s.tables b1 a b2 outs2 hr,
          recvConnectedPrompts_open pathSid ftx s.tables _ a b1 outs1 hp]
  | media ts payload =>
    rw [recvStep.eq_def] at h
    dsimp only at h
    by_cases ho : s.br.openaiOpen = true
    · rw [if_pos ho] at h
      simp only [Except.ok.injEq, Prod.mk.injEq] at h
      rw [← h.1]
    · rw [if_neg ho] at h
      simp only [Except.ok.injEq, Prod.mk.injEq] at h
      rw [← h.1]
  | start sid =>
    rw [recvStep.eq_def] at h
    simp only [Except.ok.injEq, Prod.mk.injEq] at h
    rw [← h.1]
  | stop =>
    rw [recvStep.eq_def] at h
    dsimp only at h
    by_cases ho : s.br.openaiOpen = true
    · rw [if_pos ho] at h
      simp at h
    · rw [if_neg ho] at h
      simp at h
  | other n =>
    rw [recvStep.eq_def] at h
    simp only [Except.ok.injEq, Prod.mk.injEq] at h
    rw [← h.1]

/-- When `recv_twilio` exits through the `stop` branch or the generic
exception handler, the backend connection ends up closed. -/
theorem recvLoop_stop_err_closes (pathSid : String)
    (ext : String → Option String) (ftx : List TEntry) :
    ∀ (evs : List TwilioEvent) (s : SysState),
      ((recvLoop pathSid ext ftx s evs).2.2 = .stopEvent ∨
        (recvLoop pathSid ext ftx s evs).2.2 = .errExit) →
      ((recvLoop pathSid ext ftx s evs).1).br.openaiOpen = false := by
  intro evs
  induction evs with
  | nil =>
    intro s h
    rcases h with h | h <;> simp [recvLoop] at h
  | cons e rest ih =>
    intro s h
    rw [recvLoop] at h ⊢
    cases hstep : recvStep pathSid ext ftx s e with
    | error err =>
      rw [hstep] at h
      dsimp only at h ⊢
      by_cases ho : s.br.openaiOpen = true
      · rw [if_pos ho]
      · rw [if_neg ho]
        simp only [Bool.not_eq_true] at ho
        exact ho
    | ok r =>
      obtain ⟨s2, outs, flag⟩ := r
      rw [hstep] at h
      dsimp only at h ⊢
      cases flag with
      | true =>
        rw [if_pos rfl]
        exact recvStep_stop_closes pathSid ext ftx s e s2 outs hstep
      | false =>
        rw [if_neg Bool.false_ne_true] at h ⊢
        dsimp only at h ⊢
        exact ih s2 h

/-- When `recv_twilio` exits because the telephony stream ended — the
swallowed disconnect — the backend-open flag is exactly what it was:
this exit path performs no close. -/
theorem recvLoop_streamEnd_preserves_open (pathSid : String)
    (ext : String → Option String) (ftx : List TEntry) :
    ∀ (evs : List TwilioEvent) (s : SysState),
      (recvLoop pathSid ext ftx s evs).2.2 = .streamEnd →
      ((recvLoop pathSid ext ftx s evs).1).br.openaiOpen =
        s.br.openaiOpen := by
  intro evs
  induction evs with
  | nil =>
    intro s h
    rfl
  | cons e rest ih =>
    intro s h
    rw [recvLoop] at h ⊢
    cases hstep : recvStep pathSid ext ftx s e with
    | error err =>
      rw [hstep] at h
      dsimp only at h
      by_cases ho : s.br.openaiOpen = true
      · rw [if_pos ho] at h
        simp at h
      · rw [if_neg ho] at h
        simp at h
    | ok r =>
      obtain ⟨s2, outs, flag⟩ := r
      rw [hstep] at h
      dsimp only at h ⊢
      cases flag with
      | true =>
        rw [if_pos rfl] at h
        simp at h
      | false =>
        rw [if_neg Bool.false_ne_true] at h ⊢
        dsimp only at h ⊢
        rw [ih s2 h]
        exact recvStep_ok_preserves_open pathSid ext ftx s e s2 outs hstep

/-- With the backend connection already closed, the telephony loop skips
media frames (nothing is forwarded, not even the timestamp is recorded) and
keeps consuming events; it terminates only when its own stream ends. -/
theorem recvLoop_media_ignored_when_closed (pathSid : String)
    (ext : String → Option String) (ftx : List TEntry) :
    ∀ (n : Nat) (s : SysState), s.br.openaiOpen = false →
      recvLoop pathSid ext ftx s
        (List.replicate n (.media 1000 "AA==")) = (s, [], .streamEnd) := by
  intro n
  induction n with
  | zero =>
    intro s h
    simp [recvLoop, h]
  | succ n ih =>
    intro s h
    rw [List.replicate_succ, recvLoop]
    rw [show recvStep pathSid ext ftx s (.media 1000 "AA==") = .ok (s, [], false) by
      rw [recvStep]
      simp [h]]
    simp [ih s h]

/-- C2 counterexample: with the backend connection closed from outside and
the telephony connection still delivering media frames, the inbound loop
processes all three frames and exits only because its own stream ends —
closing the backend connection does not terminate the telephony-to-backend
loop, so "closing either connection causes both loops to terminate" fails.
`sClosedC2` is the bridge state right after an admin `/end-call` closed the
backend socket. -/
def brClosedC2 : BridgeState :=
  { streamSid := some "MZ1", latestTs := 0, responseStartTs := none,
    lastItem := none, callId := some "cm_counterexample02",
    actualCallSid := none, openaiOpen := false, twilioOpen := true,
    lpLocal := none, lpsLocal := none }

/-- System state for the C2 counterexample. -/
def sClosedC2 : SysState :=
  { tables := tblEmpty, br := brClosedC2 }

/-- The same bridge state with the backend connection still open. -/
def sOpenC2 : SysState :=
  { tables := tblEmpty, br := { brClosedC2 with openaiOpen := true } }

/-- C2 counterexample, both directions.  Backend closed from outside
(`sClosedC2`, e.g. after an admin end-call): each media frame leaves the
loop running (`stop` flag false) and a stream of three frames is consumed
in full, exit reason "stream end" — the closed backend does not terminate
the telephony-to-backend loop.  Telephony closed from outside without a
`stop` event (`sOpenC2`, a bare disconnect): the loop ends at stream end
with no `closeBackend` in its trace and the backend-open flag still true —
the inbound loop does not close the backend connection to unblock the
outbound loop, because the disconnect handler at lines 211-219 is dead code
(the iterator swallows the disconnect). -/
theorem mutual_close_counterexample :
    recvStep "CA200" extNone [] sClosedC2 (.media 1000 "AA==") =
      .ok (sClosedC2, [], false) ∧
    recvLoop "CA200" extNone [] sClosedC2
      [.media 1000 "AA==", .media 1000 "AA==", .media 1000 "AA=="] =
      (sClosedC2, [], .streamEnd) ∧
    recvLoop "CA200" extNone [] sOpenC2 [.media 1000 "AA=="] =
      ({ sOpenC2 with br := { sOpenC2.br with latestTs := 1000 } },
        [Out.appendAudio "AA=="], .streamEnd) ∧
    ({ sOpenC2 with br := { sOpenC2.br with latestTs := 1000 } } :
      SysState).br.openaiOpen = true := by
  refine ⟨?_, ?_, ?_, rfl⟩
  · rw [recvStep.eq_def]
    simp [sClosedC2, brClosedC2]
  · rw [show ([TwilioEvent.media 1000 "AA==", .media 1000 "AA==",
      .media 1000 "AA=="]) = List.replicate 3 (TwilioEvent.media 1000 "AA==") from
      by decide]
    exact recvLoop_media_ignored_when_closed "CA200" extNone [] 3 sClosedC2 rfl
  · decide

/-- C2 amended: the mutual-close protocol works only through the `stop`
event or an exception — on those exit paths the inbound loop leaves the
backend connection closed, ending the outbound loop's stream, and teardown
runs exactly once after the loops.  A bare telephony disconnect (stream end
without `stop`) ends the inbound loop with the backend-open flag unchanged,
so the backend connection stays open on that path; and closing only the
backend connection ends the outbound loop but not the inbound loop, which
keeps consuming telephony events until its own stream ends. -/
theorem mutual_close_amended (pathSid : String) (ext : String → Option String)
    (ftx : List TEntry) :
    (∀ (evs : List TwilioEvent) (s : SysState),
      ((recvLoop pathSid ext ftx s evs).2.2 = .stopEvent ∨
        (recvLoop pathSid ext ftx s evs).2.2 = .errExit) →
      ((recvLoop pathSid ext ftx s evs).1).br.openaiOpen = false) ∧
    (∀ (evs : List TwilioEvent) (s : SysState),
      (recvLoop pathSid ext ftx s evs).2.2 = .streamEnd →
      ((recvLoop pathSid ext ftx s evs).1).br.openaiOpen =
        s.br.openaiOpen) ∧
    (∀ (n : Nat) (s : SysState), s.br.openaiOpen = false →
      recvLoop pathSid ext ftx s
        (List.replicate n (.media 1000 "AA==")) = (s, [], .streamEnd)) ∧
    (∀ (conn : Nat) (tbl : Tables) (tevs : List TwilioEvent)
        (omsgs : List OAIMsg) (details : Option CallDetails),
      (handle_media_stream_model true (some conn) true tbl pathSid ext ftx
        tevs omsgs details).teardownRuns = 1 ∧
      (handle_media_stream_model true (some conn) true tbl pathSid ext ftx
        tevs omsgs details).loopsRun = true) := by
  refine ⟨recvLoop_stop_err_closes pathSid ext ftx,
    recvLoop_streamEnd_preserves_open pathSid ext ftx,
    recvLoop_media_ignored_when_closed pathSid ext ftx, ?_⟩
  intro conn tbl tevs omsgs details
  constructor <;> rfl

/-- Witness for C2 at concrete states: a `stop` run closes the backend, a
bare-disconnect run leaves it open, a closed-backend run consumes its
stream, and the handler tears down once. -/
theorem mutual_close_amended_witness :
    (recvLoop "CA200" extNone [] sOpenC2 [TwilioEvent.stop]).2.2 =
      ExitReason.stopEvent ∧
    ((recvLoop "CA200" extNone [] sOpenC2 [TwilioEvent.stop]).1).br.openaiOpen =
      false ∧
    (recvLoop "CA200" extNone [] sOpenC2 [.media 1000 "AA=="]).2.2 =
      ExitReason.streamEnd ∧
    ((recvLoop "CA200" extNone [] sOpenC2
      [.media 1000 "AA=="]).1).br.openaiOpen = sOpenC2.br.openaiOpen ∧
    sClosedC2.br.openaiOpen = false ∧
    recvLoop "CA200" extNone [] sClosedC2
      (List.replicate 2 (.media 1000 "AA==")) = (sClosedC2, [], .streamEnd) ∧
    (handle_media_stream_model true (some 5) true tblEmpty "CA200" extNone []
      [] [] none).teardownRuns = 1 :=
  ⟨by decide,
    (mutual_close_amended "CA200" extNone []).1 [TwilioEvent.stop] sOpenC2
      (Or.inl (by decide)),
    by decide,
    (mutual_close_amended "CA200" extNone []).2.1 [.media 1000 "AA=="] sOpenC2
      (by decide),
    rfl,
    (mutual_close_amended "CA200" extNone []).2.2.1 2 sClosedC2 rfl,
    ((mutual_close_amended "CA200" extNone []).2.2.2 5 tblEmpty [] [] none).1⟩

/-! ## Claim C3: the missing send_initial_greeting -/

/-- C3: the handler imports `send_initial_greeting` from
`services/openai_service.py`, which does not define it, so the import fails;
under the setup semantics where the unresolvable call raises inside the
try-block, every invocation in which the backend connection opens runs the
setup-failure branch: the call is reported FAILED (for a resolvable
identifier) and the forwarding loops and teardown never run. -/
theorem missing_greeting_setup_failure :
    media_stream_import_ok = false ∧
    greeting_defined = false ∧
    (∀ (conn : Nat) (tbl : Tables) (pathSid : String)
        (ext : String → Option String) (ftx : List TEntry)
        (tevs : List TwilioEvent) (omsgs : List OAIMsg)
        (details : Option CallDetails) (cid : String),
      (fetch_call_id tbl ext pathSid).1 = some cid → cid ≠ "" →
      handle_media_stream_model true (some conn) greeting_defined tbl pathSid
        ext ftx tevs omsgs details =
        { connectAttempts := 1, loopsRun := false, teardownRuns := 0,
          outs := [Out.toNext (.updateStatus cid STATUS_FAILED)] }) := by
  refine ⟨by decide, by decide, ?_⟩
  intro conn tbl pathSid ext ftx tevs omsgs details cid hres hcne
  have hct : truthyS (some cid) = true := by
    cases hi : cid.isEmpty
    · simp [truthyS, hi]
    · exact absurd ((String.isEmpty_iff cid).mp hi) hcne
  rw [handle_media_stream_model]
  rw [show connect_to_openai_realtime true (some conn) = .ok conn from rfl]
  dsimp only
  rw [show greeting_defined = false from by decide]
  simp [hres, hct]

/-- Witness for C3 at a concrete table where the path handle resolves. -/
theorem missing_greeting_setup_failure_witness :
    (fetch_call_id tblC8w extNone "CA555").1 = some "cm_direct_hit_000001" ∧
    handle_media_stream_model true (some 9) greeting_defined tblC8w "CA555"
      extNone [] [] [] none =
      { connectAttempts := 1, loopsRun := false, teardownRuns := 0,
        outs := [Out.toNext (.updateStatus "cm_direct_hit_000001"
          STATUS_FAILED)] } :=
  ⟨by decide,
    missing_greeting_setup_failure.2.2 9 tblC8w "CA555" extNone [] [] [] none
      "cm_direct_hit_000001" (by decide) (by decide)⟩

/-! ## Claim C7: setup failure propagates -/

/-- C7: a failure to open or authenticate the backend connection makes
`connect_to_openai_realtime` return the error to its caller (the except
block at lines 142-146 re-raises, and a missing key raises before
connecting); the handler then reports FAILED for the resolved identifier and
returns with a single connect attempt, without running either loop. -/
theorem setup_failure_propagates :
    connect_to_openai_realtime true none = .error .connectFailed ∧
    (∀ outcome, connect_to_openai_realtime false outcome =
      .error .apiKeyMissing) ∧
    (∀ (greetingOk : Bool) (tbl : Tables) (pathSid : String)
        (ext : String → Option String) (ftx : List TEntry)
        (tevs : List TwilioEvent) (omsgs : List OAIMsg)
        (details : Option CallDetails) (cid : String),
      (fetch_call_id tbl ext pathSid).1 = some cid → cid ≠ "" →
      handle_media_stream_model true none greetingOk tbl pathSid ext ftx
        tevs omsgs details =
        { connectAttempts := 1, loopsRun := false, teardownRuns := 0,
          outs := [Out.toNext (.updateStatus cid STATUS_FAILED)] }) := by
  refine ⟨rfl, fun outcome => rfl, ?_⟩
  intro greetingOk tbl pathSid ext ftx tevs omsgs details cid hres hcne
  have hct : truthyS (some cid) = true := by
    cases hi : cid.isEmpty
    · simp [truthyS, hi]
    · exact absurd ((String.isEmpty_iff cid).mp hi) hcne
  rw [handle_media_stream_model]
  rw [show connect_to_openai_realtime true none = .error .connectFailed from rfl]
  simp [hres, hct]

/-- Witness for C7 at a concrete table where the path handle resolves. -/
theorem setup_failure_propagates_witness :
    (fetch_call_id tblC8w extNone "CA555").1 = some "cm_direct_hit_000001" ∧
    handle_media_stream_model true none true tblC8w "CA555" extNone [] [] []
      none =
      { connectAttempts := 1, loopsRun := false, teardownRuns := 0,
        outs := [Out.toNext (.updateStatus "cm_direct_hit_000001"
          STATUS_FAILED)] } :=
  ⟨by decide,
    setup_failure_propagates.2.2 true tblC8w "CA555" extNone [] [] [] none
      "cm_direct_hit_000001" (by decide) (by decide)⟩

/-! ## Sorting lemmas (for claim C6) -/

/-- Timestamp order on transcript entries. -/
def tsLe (a b : TEntry) : Prop :=
  a.timestamp ≤ b.timestamp

instance tsLeDec (a b : TEntry) : Decidable (tsLe a b) :=
  Int.decLe _ _

theorem insertTs_perm (t : TEntry) (l : List TEntry) :
    List.Perm (insertTs t l) (t :: l) := by
  induction l with
  | nil => exact List.Perm.refl _
  | cons u us ih =>
    by_cases h : u.timestamp ≤ t.timestamp
    · rw [insertTs, if_pos h]
      exact (ih.cons u).trans (List.Perm.swap t u us)
    · rw [insertTs, if_neg h]

theorem sortByTs_perm (l : List TEntry) : List.Perm (sortByTs l) l := by
  induction l with
  | nil => exact List.Perm.refl _
  | cons x xs ih =>
    have hs : sortByTs (x :: xs) = insertTs x (sortByTs xs) := rfl
    rw [hs]
    exact (insertTs_perm x (sortByTs xs)).trans (ih.cons x)

theorem insertTs_sorted (t : TEntry) (l : List TEntry)
    (h : l.Pairwise tsLe) : (insertTs t l).Pairwise tsLe := by
  induction l with
  | nil => simp [insertTs, List.pairwise_cons]
  | cons u us ih =>
    obtain ⟨hu, hus⟩ := List.pairwise_cons.mp h
    by_cases hle : u.timestamp ≤ t.timestamp
    · rw [insertTs, if_pos hle]
      refine List.pairwise_cons.mpr ⟨?_, ih hus⟩
      intro x hx
      rcases List.mem_cons.mp ((insertTs_perm t us).mem_iff.mp hx) with h1 | h1
      · subst h1
        exact hle
      · exact hu x h1
    · rw [insertTs, if_neg hle]
      refine List.pairwise_cons.mpr ⟨?_, h⟩
      intro x hx
      rcases List.mem_cons.mp hx with h1 | h1
      · subst h1
        exact le_of_not_le hle
      · exact le_trans (le_of_not_le hle) (hu x h1)

theorem sortByTs_sorted (l : List TEntry) : (sortByTs l).Pairwise tsLe := by
  induction l with
  | nil => exact List.Pairwise.nil
  | cons x xs ih => exact insertTs_sorted x (sortByTs xs) ih

/-! ## Claim C6: teardown -/

/-- The three tables after teardown: the pending mapping loses the original
identifier (and the path handle when distinct from both cleanup
identifiers), the agent mapping loses the cleanup identifier when it
differs from the original, and the registry loses the cleanup identifier
and the path handle. -/
theorem teardown_tables (tbl : Tables) (pathSid : String)
    (actual : Option String) (callId : Option String)
    (details : Option CallDetails) (op : Bool)
    (hcm : cleanupSid pathSid actual ≠ "") :
    (teardown tbl pathSid actual callId details op).1 =
      { incoming :=
          (if pathSid ≠ cleanupSid pathSid actual ∧
              pathSid ≠ originalSid tbl (cleanupSid pathSid actual) then
            dictPop (dictPop tbl.incoming
              (originalSid tbl (cleanupSid pathSid actual))) pathSid
          else dictPop tbl.incoming
            (originalSid tbl (cleanupSid pathSid actual))),
        agent :=
          (if cleanupSid pathSid actual ≠
              originalSid tbl (cleanupSid pathSid actual) then
            dictPop tbl.agent (cleanupSid pathSid actual)
          else tbl.agent),
        active :=
          (if pathSid ≠ cleanupSid pathSid actual then
            dictPop (dictPop tbl.active (cleanupSid pathSid actual)) pathSid
          else dictPop tbl.active (cleanupSid pathSid actual)) } := by
  revert hcm
  rw [teardown.eq_def]
  dsimp only
  generalize cleanupSid pathSid actual = c
  generalize originalSid tbl c = o
  intro hcm
  by_cases h1 : c = o <;> by_cases h2 : pathSid = c <;>
    by_cases h3 : pathSid = o <;>
      simp [cleanup_call_mappings, h1, h2, h3, hcm]

/-- Outputs of teardown for a truthy call identifier. -/
theorem teardown_outs (tbl : Tables) (pathSid : String)
    (actual : Option String) (cid : String) (details : Option CallDetails)
    (op : Bool) (hcne : cid ≠ "") :
    (teardown tbl pathSid actual (some cid) details op).2 =
      (match details with
       | some d =>
         if d.transcripts ≠ [] then
           [Out.toNext (.updateMetadata cid (compileTranscription d)
             d.transcripts.length)]
         else []
       | none => []) ++
      [Out.toNext (.updateStatus cid STATUS_COMPLETED)] ++
      (if op then [Out.closeBackend] else []) := by
  rw [teardown.eq_def]
  simp [hcne]

/-- C6: whenever the forwarding phase ends, the teardown block runs (the
model composes it unconditionally after the loops, mirroring `finally`); for
tables satisfying the process invariants (distinct dict keys; agent-leg keys
are never pending-mapping keys nor self-maps; a path handle that is an
agent-leg key is the cleanup identifier itself), teardown removes every
pending-mapping, agent-mapping and connection entry keyed by the path
handle, the cleanup identifier, or the resolved original identifier; it
reports the compiled transcript — sorted by timestamp (a sorted permutation
of the stored entries) with recorded initial objectives prefixed — and the
terminal COMPLETED status; it closes the backend connection if still open;
and no record-keeping outcome skips the status report or the close (every
remote call in the Python client swallows its own errors). -/
theorem teardown_cleanup_and_reports (tbl : Tables) (pathSid : String)
    (actual : Option String) (cid : String) (d : CallDetails)
    (openaiOpen : Bool)
    (hndI : dictNodup tbl.incoming) (hndG : dictNodup tbl.agent)
    (hndA : dictNodup tbl.active)
    (hagent_inc : ∀ p ∈ tbl.agent, dictGet tbl.incoming p.1 = none)
    (hagent_self : ∀ p ∈ tbl.agent, p.2 ≠ p.1)
    (hpath : dictGet tbl.agent pathSid ≠ none →
      cleanupSid pathSid actual = pathSid)
    (hpne : pathSid ≠ "") (hcne : cid ≠ "") (htr : d.transcripts ≠ []) :
    (dictGet (teardown tbl pathSid actual (some cid) (some d) openaiOpen).1.active
        (cleanupSid pathSid actual) = none ∧
      dictGet (teardown tbl pathSid actual (some cid) (some d) openaiOpen).1.active
        pathSid = none) ∧
    (dictGet (teardown tbl pathSid actual (some cid) (some d) openaiOpen).1.incoming
        (cleanupSid pathSid actual) = none ∧
      dictGet (teardown tbl pathSid actual (some cid) (some d) openaiOpen).1.incoming
        pathSid = none ∧
      dictGet (teardown tbl pathSid actual (some cid) (some d) openaiOpen).1.incoming
        (originalSid tbl (cleanupSid pathSid actual)) = none) ∧
    (dictGet (teardown tbl pathSid actual (some cid) (some d) openaiOpen).1.agent
        (cleanupSid pathSid actual) = none ∧
      dictGet (teardown tbl pathSid actual (some cid) (some d) openaiOpen).1.agent
        pathSid = none) ∧
    (teardown tbl pathSid actual (some cid) (some d) openaiOpen).2 =
      Out.toNext (.updateMetadata cid (compileTranscription d)
          d.transcripts.length) ::
        Out.toNext (.updateStatus cid STATUS_COMPLETED) ::
        (if openaiOpen then [Out.closeBackend] else []) ∧
    ((sortByTs d.transcripts).Pairwise tsLe ∧
      List.Perm (sortByTs d.transcripts) d.transcripts) ∧
    (∀ (details2 : Option CallDetails) (open2 : Bool),
      Out.toNext (.updateStatus cid STATUS_COMPLETED) ∈
        (teardown tbl pathSid actual (some cid) details2 open2).2 ∧
      (open2 = true → Out.closeBackend ∈
        (teardown tbl pathSid actual (some cid) details2 open2).2)) := by
  have hcnotempty : cleanupSid pathSid actual ≠ "" := by
    cases actual with
    | none => simpa [cleanupSid] using hpne
    | some a =>
      by_cases h : a = ""
      · simp only [cleanupSid, h, ne_eq, not_true_eq_false, if_false]
        exact hpne
      · simp [cleanupSid, h]
  set c := cleanupSid pathSid actual with hc
  set o := originalSid tbl c with ho
  have htab := fun (cI : Option String) (de : Option CallDetails)
    (op2 : Bool) => teardown_tables tbl pathSid actual cI de op2 hcnotempty
  have hInc : ∀ (cI : Option String) (de : Option CallDetails) (op2 : Bool),
      (teardown tbl pathSid actual cI de op2).1.incoming =
        (if pathSid ≠ c ∧ pathSid ≠ o then
          dictPop (dictPop tbl.incoming o) pathSid
        else dictPop tbl.incoming o) := by
    intro cI de op2
    rw [htab cI de op2]
  have hAg : ∀ (cI : Option String) (de : Option CallDetails) (op2 : Bool),
      (teardown tbl pathSid actual cI de op2).1.agent =
        (if c ≠ o then dictPop tbl.agent c else tbl.agent) := by
    intro cI de op2
    rw [htab cI de op2]
  have hAct : ∀ (cI : Option String) (de : Option CallDetails) (op2 : Bool),
      (teardown tbl pathSid actual cI de op2).1.active =
        (if pathSid ≠ c then dictPop (dictPop tbl.active c) pathSid
        else dictPop tbl.active c) := by
    intro cI de op2
    rw [htab cI de op2]
  have hBo : dictGet (dictPop tbl.incoming o) o = none :=
    dictGet_pop_self tbl.incoming o hndI
  have hBc : dictGet (dictPop tbl.incoming o) c = none := by
    cases hgc : dictGet tbl.agent c with
    | some o2 =>
      have hmem := dictGet_mem tbl.agent c o2 hgc
      exact dictGet_none_pop _ _ _ (hagent_inc (c, o2) hmem)
    | none =>
      have hoc : o = c := by
        rw [ho, originalSid, hgc]
        rfl
      rw [← hoc]
      exact hBo
  have hIncO : dictGet (teardown tbl pathSid actual (some cid) (some d)
      openaiOpen).1.incoming o = none := by
    rw [hInc]
    by_cases h2 : pathSid ≠ c ∧ pathSid ≠ o
    · rw [if_pos h2]
      exact dictGet_none_pop _ _ _ hBo
    · rw [if_neg h2]
      exact hBo
  have hIncC : dictGet (teardown tbl pathSid actual (some cid) (some d)
      openaiOpen).1.incoming c = none := by
    rw [hInc]
    by_cases h2 : pathSid ≠ c ∧ pathSid ≠ o
    · rw [if_pos h2]
      exact dictGet_none_pop _ _ _ hBc
    · rw [if_neg h2]
      exact hBc
  have hIncP : dictGet (teardown tbl pathSid actual (some cid) (some d)
      openaiOpen).1.incoming pathSid = none := by
    rw [hInc]
    by_cases h2 : pathSid ≠ c ∧ pathSid ≠ o
    · rw [if_pos h2]
      exact dictGet_pop_self _ _ (dictNodup_pop tbl.incoming o hndI)
    · rw [if_neg h2]
      by_cases hpc : pathSid = c
      · rw [hpc]
        exact hBc
      · have hpo : pathSid = o := by
          by_contra hno
          exact h2 ⟨hpc, hno⟩
        rw [hpo]
        exact hBo
  have hAgC : dictGet (teardown tbl pathSid actual (some cid) (some d)
      openaiOpen).1.agent c = none := by
    rw [hAg]
    by_cases h1 : c ≠ o
    · rw [if_pos h1]
      exact dictGet_pop_self tbl.agent c hndG
    · rw [if_neg h1]
      cases hgc : dictGet tbl.agent c with
      | none => rfl
      | some o2 =>
        have hmem := dictGet_mem tbl.agent c o2 hgc
        have hco : o = o2 := by
          rw [ho, originalSid, hgc]
          rfl
        have hne : c ≠ o := by
          rw [hco]
          exact fun h => (hagent_self (c, o2) hmem) h.symm
        exact absurd hne h1
  have hAgP : dictGet (teardown tbl pathSid actual (some cid) (some d)
      openaiOpen).1.agent pathSid = none := by
    by_cases hpc : pathSid = c
    · rw [hAg]
      by_cases h1 : c ≠ o
      · rw [if_pos h1, hpc]
        exact dictGet_pop_self tbl.agent c hndG
      · rw [if_neg h1]
        cases hgc : dictGet tbl.agent pathSid with
        | none => rfl
        | some o2 =>
          have hgc2 : dictGet tbl.agent c = some o2 := by
            rw [← hpc]
            exact hgc
          have hmem := dictGet_mem tbl.agent c o2 hgc2
          have hco : o = o2 := by
            rw [ho, originalSid, hgc2]
            rfl
          have hne : c ≠ o := by
            rw [hco]
            exact fun h => (hagent_self (c, o2) hmem) h.symm
          exact absurd hne h1
    · have hnone : dictGet tbl.agent pathSid = none := by
        cases hga : dictGet tbl.agent pathSid with
        | none => rfl
        | some v =>
          have h6 := hpath (by rw [hga]; exact fun h => Option.noConfusion h)
          exact absurd h6.symm hpc
      rw [hAg]
      by_cases h1 : c ≠ o
      · rw [if_pos h1]
        exact dictGet_none_pop _ _ _ hnone
      · rw [if_neg h1]
        exact hnone
  have hActC : dictGet (teardown tbl pathSid actual (some cid) (some d)
      openaiOpen).1.active c = none := by
    rw [hAct]
    by_cases hpc : pathSid ≠ c
    · rw [if_pos hpc]
      rw [dictGet_pop_ne _ _ _ hpc]
      exact dictGet_pop_self tbl.active c hndA
    · rw [if_neg hpc]
      exact dictGet_pop_self tbl.active c hndA
  have hActP : dictGet (teardown tbl pathSid actual (some cid) (some d)
      openaiOpen).1.active pathSid = none := by
    rw [hAct]
    by_cases hpc : pathSid ≠ c
    · rw [if_pos hpc]
      exact dictGet_pop_self _ _ (dictNodup_pop tbl.active c hndA)
    · rw [if_neg hpc]
      have hpc2 : pathSid = c := by
        by_contra hcon
        exact hpc hcon
      rw [hpc2]
      exact dictGet_pop_self tbl.active c hndA
  refine ⟨⟨hActC, hActP⟩, ⟨hIncC, hIncP, hIncO⟩,
    ⟨hAgC, hAgP⟩, ?_, ⟨sortByTs_sorted d.transcripts, sortByTs_perm d.transcripts⟩,
    ?_⟩
  · rw [teardown_outs _ _ _ _ _ _ hcne]
    simp [htr]
  · intro details2 open2
    rw [teardown_outs _ _ _ _ _ _ hcne]
    constructor
    · cases details2 with
      | none => simp
      | some d2 =>
        by_cases h : d2.transcripts ≠ [] <;> simp [h]
    · intro hop
      cases details2 with
      | none => simp [hop]
      | some d2 =>
        by_cases h : d2.transcripts ≠ [] <;> simp [h, hop]

/-- Tables for the C6 witness: an incoming call whose path handle `CA800` is
the agent leg of original `CA700`, registry entry under `CA800`. -/
def tblC6 : Tables :=
  { incoming := [("CA700", entryC10)],
    agent := [("CA800", "CA700")],
    active := [("CA800", 3)] }

/-- Call details for the C6 witness: two transcript entries out of order and
one recorded initial objective. -/
def dC6 : CallDetails :=
  { transcripts :=
      [{ text := "later line", speaker := "ai", timestamp := 2000 },
       { text := "earlier line", speaker := "caller", timestamp := 1000 }],
    initialPrompts := ["Ask about invoices"] }

/-- Witness for C6 at the concrete incoming-call state. -/
theorem teardown_cleanup_and_reports_witness :
    dictNodup tblC6.incoming ∧
    (∀ p ∈ tblC6.agent, dictGet tblC6.incoming p.1 = none) ∧
    (∀ p ∈ tblC6.agent, p.2 ≠ p.1) ∧
    dC6.transcripts ≠ [] ∧
    (dictGet (teardown tblC6 "CA800" none (some "cm_witness000000001")
        (some dC6) true).1.active (cleanupSid "CA800" none) = none ∧
      dictGet (teardown tblC6 "CA800" none (some "cm_witness000000001")
        (some dC6) true).1.active "CA800" = none) ∧
    (teardown tblC6 "CA800" none (some "cm_witness000000001") (some dC6)
        true).2 =
      Out.toNext (.updateMetadata "cm_witness000000001"
          (compileTranscription dC6) dC6.transcripts.length) ::
        Out.toNext (.updateStatus "cm_witness000000001" STATUS_COMPLETED) ::
        [Out.closeBackend] := by
  have h := teardown_cleanup_and_reports tblC6 "CA800" none
    "cm_witness000000001" dC6 true (by decide) (by decide) (by decide)
    (by decide) (by decide) (fun _ => rfl) (by decide) (by decide) (by decide)
  refine ⟨by decide, by decide, by decide, by decide, h.1, ?_⟩
  have h4 := h.2.2.2.1
  simpa using h4

end AICallSvc
